import Mathlib

/-!
# libMPSSE I2C sample: transaction engine and EEPROM verification harness

A shallow embedding of `src/samples/I2C/sample-static.c`:

* `write_bytes` / `read_bytes` (the transaction engine with its retry loops),
* `TestDeviceEEPROM` (the write / read-back / compare loop with its glitch counter).

Machine integers are natural numbers; `uint8` and `uint32` arithmetic is reduced
explicitly modulo `2^8` and `2^32` where the source can overflow.  Arrays are lists.
The external transport (`I2C_DeviceWrite`, `I2C_DeviceRead` of libMPSSE) is a parameter:
an arbitrary state machine `Transport σ`.  Every transport call is recorded in a ghost
trace (`World.calls`, most recent call first) so that statements about "the calls issued"
can be made; every `printf` is recorded in `World.out` (most recent line first).
-/

namespace MPSSE

/-! ## Constants -/

/-- Modelled from the spec: the status domain (success, handle invalid, ...) is the enum
`FT_STATUS` of `ftd2xx.h`, which is not among the sources.  `FT_OK`, success, is its first
enumerator, value 0; `Infra_DbgPrintStatus` in `src/ftdi_infra.c` lists the enumerators in
their order, and `status |= ...` at line 296 relies on `FT_OK` being 0. -/
def FT_OK : Nat := 0

/-- Modelled from the spec: status `I/O error` (a transport fault), `FT_IO_ERROR` of
`ftd2xx.h`, fifth enumerator. -/
def FT_IO_ERROR : Nat := 4

/-- Modelled from the spec: status `invalid parameter` (a configuration fault),
`FT_INVALID_PARAMETER` of `ftd2xx.h`, seventh enumerator. -/
def FT_INVALID_PARAMETER : Nat := 6

/-- Modelled from the spec: status `invalid baud/clock rate` (a configuration fault),
`FT_INVALID_BAUD_RATE` of `ftd2xx.h`, eighth enumerator. -/
def FT_INVALID_BAUD_RATE : Nat := 7

/-- Modelled from the spec: status `not supported` (a configuration fault),
`FT_NOT_SUPPORTED` of `ftd2xx.h`, eighteenth enumerator. -/
def FT_NOT_SUPPORTED : Nat := 17

/-- Modelled from the spec: option `START_BIT` of the transfer options bitset; the macro is
defined in `libMPSSE_i2c.h`, which is not among the sources, as bit 0. -/
def I2C_TRANSFER_OPTIONS_START_BIT : Nat := 0x01

/-- Modelled from the spec: option `STOP_BIT` of the transfer options bitset, bit 1 in
`libMPSSE_i2c.h`. -/
def I2C_TRANSFER_OPTIONS_STOP_BIT : Nat := 0x02

/-- Modelled from the spec: option `NACK_LAST_BYTE` of the transfer options bitset, bit 3 in
`libMPSSE_i2c.h`. -/
def I2C_TRANSFER_OPTIONS_NACK_LAST_BYTE : Nat := 0x08

/-- Modelled from the spec: option `FAST_TRANSFER_BYTES` of the transfer options bitset,
bit 4 in `libMPSSE_i2c.h`. -/
def I2C_TRANSFER_OPTIONS_FAST_TRANSFER_BYTES : Nat := 0x10

/-- `#define I2C_DEVICE_ADDRESS_EEPROM 0x57` -/
def I2C_DEVICE_ADDRESS_EEPROM : Nat := 0x57

/-- `#define I2C_DEVICE_BUFFER_SIZE 256` -/
def I2C_DEVICE_BUFFER_SIZE : Nat := 256

/-- `#define START_ADDRESS_EEPROM 0x00` -/
def START_ADDRESS_EEPROM : Nat := 0x00

/-- `#define END_ADDRESS_EEPROM 0x10` -/
def END_ADDRESS_EEPROM : Nat := 0x10

/-- `#define EEPROM_DATA_LEN (END_ADDRESS_EEPROM-START_ADDRESS_EEPROM)` -/
def EEPROM_DATA_LEN : Nat := END_ADDRESS_EEPROM - START_ADDRESS_EEPROM

/-- `#define FAST_TRANSFER 0` -/
def FAST_TRANSFER : Nat := 0

/-- Number of values of a `uint32`. -/
def UINT32_MOD : Nat := 2 ^ 32

/-- Number of values of a `uint8`. -/
def UINT8_MOD : Nat := 2 ^ 8

/-! ## The external transport and the global state -/

/-- Direction of a transport call. -/
inductive Dir
  | write
  | read
  deriving DecidableEq

/-- One recorded transport call: its arguments, the status it returned, the content of the
transfer buffer when it returned and, for a read, the bytes the transport handed over. -/
structure Call where
  dir : Dir
  slaveAddress : Nat
  sizeToTransfer : Nat
  bufIn : List Nat
  options : Nat
  status : Nat
  bufOut : List Nat
  received : List Nat
  deriving DecidableEq

/-- One recorded `printf` of the sample. -/
inductive Out
  | statusNotOk (status : Nat)
  | glitch0 (count glitch : Nat)
  | glitch1 (count glitch : Nat)
  | same (len glitch : Nat)
  | byteSame (address written readBack : Nat)
  | byteError (address written readBack : Nat)
  | writeBytes (status : Nat)
  | adcSame (len glitch : Nat)
  | adcError (status written0 written1 read0 read1 glitch : Nat)
  | pause
  deriving DecidableEq

/-- The external transport handle: an arbitrary state machine.
`deviceWrite d slaveAddress length buffer options` returns `(status, bytesTransferred, d')`;
`deviceRead d slaveAddress length buffer options` returns
`(status, received, bytesTransferred, d')`, where `received` are the bytes the transport
stores at the start of the buffer (at most `length` of them are stored). -/
structure Transport (σ : Type) where
  deviceWrite : σ → Nat → Nat → List Nat → Nat → Nat × Nat × σ
  deviceRead : σ → Nat → Nat → List Nat → Nat → Nat × List Nat × Nat × σ

/-- The globals of the sample (`ftHandle` with the device behind it, `buffer`, `timeWrite`,
`timeRead`) together with the ghost trace of transport calls and the printed lines. -/
structure World (σ : Type) where
  dev : σ
  buffer : List Nat
  timeWrite : Nat
  timeRead : Nat
  calls : List Call
  out : List Out

/-- `stop_time()` outside `_WIN32`: `dwTemp` stays 0. -/
def stop_time : Nat := 0

/-- `memcpy(dst + off, src, n)` on lists. -/
def memcpy (dst : List Nat) (off : Nat) (src : List Nat) (n : Nat) : List Nat :=
  dst.take off ++ src.take n ++ dst.drop (off + n)

/-- The transfer buffer after a transport read stored `received` (at most `len` bytes) at
its start. -/
def storeRead (buf received : List Nat) (len : Nat) : List Nat :=
  received.take len ++ buf.drop (received.take len).length

/-- `I2C_DeviceWrite(ftHandle, slaveAddress, size, buffer, &bytesTransfered, options)`
on the global buffer; the returned byte count is never used by the sample. -/
def I2C_DeviceWrite {σ : Type} (T : Transport σ) (w : World σ)
    (slaveAddress size options : Nat) : Nat × World σ :=
  let r := T.deviceWrite w.dev slaveAddress size w.buffer options
  (r.1, { w with
    dev := r.2.2
    calls := ⟨Dir.write, slaveAddress, size, w.buffer, options, r.1, w.buffer, []⟩ :: w.calls })

/-- `I2C_DeviceRead(ftHandle, slaveAddress, size, buffer, &bytesTransfered, options)`
on the global buffer; the returned byte count is never used by the sample. -/
def I2C_DeviceRead {σ : Type} (T : Transport σ) (w : World σ)
    (slaveAddress size options : Nat) : Nat × World σ :=
  let r := T.deviceRead w.dev slaveAddress size w.buffer options
  let buffer := storeRead w.buffer r.2.1 size
  (r.1, { w with
    dev := r.2.2.2
    buffer := buffer
    calls := ⟨Dir.read, slaveAddress, size, w.buffer, options, r.1, buffer, r.2.1⟩ :: w.calls })

/-! ## Transaction engine -/

/-- The retry loop shared by the three phases:
`while (status != FT_OK && trials < 10) { body; trials++; }`.
The first argument is `10 - trials`, the number of retries still allowed; `body` receives
the failing status (it is printed by `APP_CHECK_STATUS_NOEXIT`) and returns the new one. -/
def retry_while {σ : Type} (body : Nat → World σ → Nat × World σ) :
    Nat → Nat → World σ → Nat × World σ
  | 0, status, w => (status, w)
  | left + 1, status, w =>
    if status ≠ FT_OK then
      let r := body status w
      retry_while body left r.1 r.2
    else (status, w)

/-- `APP_CHECK_STATUS_NOEXIT(status)`: prints when the status is not `FT_OK`, never exits. -/
def APP_CHECK_STATUS_NOEXIT {σ : Type} (status : Nat) (w : World σ) : World σ :=
  if status ≠ FT_OK then { w with out := Out.statusNotOk status :: w.out } else w

/-- Options of a write transaction (lines 215-219 and 266-270). -/
def write_options : Nat :=
  if FAST_TRANSFER ≠ 0 then
    I2C_TRANSFER_OPTIONS_START_BIT ||| I2C_TRANSFER_OPTIONS_STOP_BIT |||
      I2C_TRANSFER_OPTIONS_FAST_TRANSFER_BYTES
  else I2C_TRANSFER_OPTIONS_START_BIT ||| I2C_TRANSFER_OPTIONS_STOP_BIT

/-- Options of a read transaction (lines 289-293). -/
def read_options : Nat :=
  if FAST_TRANSFER ≠ 0 then
    I2C_TRANSFER_OPTIONS_START_BIT ||| I2C_TRANSFER_OPTIONS_STOP_BIT |||
      I2C_TRANSFER_OPTIONS_NACK_LAST_BYTE ||| I2C_TRANSFER_OPTIONS_FAST_TRANSFER_BYTES
  else I2C_TRANSFER_OPTIONS_START_BIT ||| I2C_TRANSFER_OPTIONS_STOP_BIT |||
      I2C_TRANSFER_OPTIONS_NACK_LAST_BYTE

/-- Body of the retry loop of `write_bytes` (lines 230-233). -/
def write_retry_body {σ : Type} (T : Transport σ) (slaveAddress bytesToTransfer options : Nat)
    (status : Nat) (w : World σ) : Nat × World σ :=
  let w1 := APP_CHECK_STATUS_NOEXIT status w
  let r := I2C_DeviceWrite T w1 slaveAddress bytesToTransfer options
  (r.1, { r.2 with timeWrite := stop_time })

/-- `write_bytes(slaveAddress, registerAddress, data, numBytes)` (lines 206-238).
Returns the status and the new globals. -/
def write_bytes {σ : Type} (T : Transport σ) (w : World σ)
    (slaveAddress registerAddress : Nat) (data : List Nat) (numBytes : Nat) :
    Nat × World σ :=
  let options := write_options
  let w1 := { w with buffer := w.buffer.set 0 registerAddress }
  let w2 := { w1 with buffer := memcpy w1.buffer 1 data numBytes }
  let bytesToTransfer := (1 + numBytes) % UINT32_MOD
  let r := I2C_DeviceWrite T w2 slaveAddress bytesToTransfer options
  let w3 := { r.2 with timeWrite := stop_time }
  retry_while (write_retry_body T slaveAddress bytesToTransfer options) 10 r.1 w3

/-- Body of the retry loop of the register-select phase of `read_bytes` (lines 276-277). -/
def select_retry_body {σ : Type} (T : Transport σ) (slaveAddress bytesToTransfer options : Nat)
    (status : Nat) (w : World σ) : Nat × World σ :=
  let w1 := APP_CHECK_STATUS_NOEXIT status w
  I2C_DeviceWrite T w1 slaveAddress bytesToTransfer options

/-- Register-select phase of `read_bytes`: the block under `if (bRegisterAddress)` up to the
end of its retry loop (lines 266-279). -/
def read_select {σ : Type} (T : Transport σ) (w : World σ)
    (slaveAddress registerAddress : Nat) : Nat × World σ :=
  let options := write_options
  let w1 := { w with buffer := w.buffer.set 0 registerAddress }
  let bytesToTransfer := 1
  let r := I2C_DeviceWrite T w1 slaveAddress bytesToTransfer options
  retry_while (select_retry_body T slaveAddress bytesToTransfer options) 10 r.1 r.2

/-- Body of the retry loop of the data phase of `read_bytes` (lines 302-305). -/
def read_retry_body {σ : Type} (T : Transport σ) (slaveAddress bytesToTransfer options : Nat)
    (status : Nat) (w : World σ) : Nat × World σ :=
  let w1 := APP_CHECK_STATUS_NOEXIT status w
  let r := I2C_DeviceRead T w1 slaveAddress bytesToTransfer options
  (r.1, { r.2 with timeRead := stop_time })

/-- Data phase of `read_bytes` (lines 287-313), entered with the current value of `status`.
Returns the status, the new globals and the caller's `data`. -/
def read_data {σ : Type} (T : Transport σ) (w : World σ) (status : Nat)
    (slaveAddress : Nat) (data : List Nat) (numBytes : Nat) : Nat × World σ × List Nat :=
  let bytesToTransfer := numBytes
  let options := read_options
  let r := I2C_DeviceRead T w slaveAddress bytesToTransfer options
  let status := status ||| r.1
  let w1 := { r.2 with timeRead := stop_time }
  let l := retry_while (read_retry_body T slaveAddress bytesToTransfer options) 10 status w1
  if l.1 = FT_OK then (l.1, l.2, memcpy data 0 l.2.buffer bytesToTransfer)
  else (l.1, l.2, data)

/-- `read_bytes(slaveAddress, registerAddress, bRegisterAddress, data, numBytes)`
(lines 255-314).  Returns the status, the new globals and the caller's `data`. -/
def read_bytes {σ : Type} (T : Transport σ) (w : World σ)
    (slaveAddress registerAddress bRegisterAddress : Nat) (data : List Nat) (numBytes : Nat) :
    Nat × World σ × List Nat :=
  if bRegisterAddress ≠ 0 then
    let s := read_select T w slaveAddress registerAddress
    if s.1 ≠ FT_OK then (s.1, s.2, data)
    else read_data T s.2 s.1 slaveAddress data numBytes
  else read_data T w FT_OK slaveAddress data numBytes

/-! ## Test transports -/

/-- A transport whose first `f` calls (writes and reads alike) fail with `FT_IO_ERROR` and
whose later calls succeed; the state counts the calls made so far.  A successful read
delivers `size` bytes `0xA5`. -/
def failFirst (f : Nat) : Transport Nat where
  deviceWrite := fun d _ size _ _ => (if d < f then FT_IO_ERROR else FT_OK, if d < f then 0 else size, d + 1)
  deviceRead := fun d _ size _ _ =>
    (if d < f then FT_IO_ERROR else FT_OK, if d < f then [] else List.replicate size 0xA5,
      if d < f then 0 else size, d + 1)

/-- A transport every call of which returns the fixed status `st`; a read delivers `junk`. -/
def alwaysStatus (st : Nat) (junk : List Nat) : Transport Unit where
  deviceWrite := fun _ _ _ _ _ => (st, 0, ())
  deviceRead := fun _ _ _ _ _ => (st, junk, 0, ())

/-- An EEPROM-like transport that always succeeds and echoes: a write of more than one byte
stores the bytes that follow the register address; a one-byte write (register select)
stores nothing; a read delivers the stored bytes. -/
def echoTransport : Transport (List Nat) where
  deviceWrite := fun mem _ size buffer _ =>
    (FT_OK, size, if 1 < size then (buffer.take size).drop 1 else mem)
  deviceRead := fun mem _ size _ _ => (FT_OK, mem.take size, size, mem)

/-- Globals at program start: zeroed buffer and timing samples, nothing called or printed. -/
def World.init {σ : Type} (d : σ) : World σ :=
  { dev := d, buffer := List.replicate I2C_DEVICE_BUFFER_SIZE 0, timeWrite := 0, timeRead := 0,
    calls := [], out := [] }

/-! ## Attempt streams (specification side)

The status the transport would return on the `k`-th (0-based) of consecutive identical
calls.  They describe an "injected failure sequence" without running the engine. -/

/-- Status of the `k`-th consecutive identical `deviceWrite`, starting in device state `d`. -/
def writeAttempt {σ : Type} (T : Transport σ) (slaveAddress size : Nat) (buf : List Nat)
    (options : Nat) : Nat → σ → Nat
  | 0, d => (T.deviceWrite d slaveAddress size buf options).1
  | k + 1, d =>
    writeAttempt T slaveAddress size buf options k
      (T.deviceWrite d slaveAddress size buf options).2.2

/-- Status of the `k`-th consecutive identical `deviceRead`, starting in device state `d`
with buffer `buf` (each read may change the buffer the next one is handed). -/
def readAttempt {σ : Type} (T : Transport σ) (slaveAddress size options : Nat) :
    Nat → σ → List Nat → Nat
  | 0, d, buf => (T.deviceRead d slaveAddress size buf options).1
  | k + 1, d, buf =>
    readAttempt T slaveAddress size options k
      (T.deviceRead d slaveAddress size buf options).2.2.2
      (storeRead buf (T.deviceRead d slaveAddress size buf options).2.1 size)

/-- The transfer buffer as framed by `write_bytes`: `[registerAddress, data...]`. -/
def frame (buffer : List Nat) (registerAddress : Nat) (data : List Nat) (numBytes : Nat) :
    List Nat :=
  memcpy (buffer.set 0 registerAddress) 1 data numBytes

/-- The calls issued since the trace had length `before` (most recent first). -/
def issued (calls : List Call) (before : Nat) : List Call :=
  calls.take (calls.length - before)

/-- The configuration faults of the error taxonomy. -/
def isConfigFault (status : Nat) : Prop :=
  status = FT_INVALID_PARAMETER ∨ status = FT_NOT_SUPPORTED ∨ status = FT_INVALID_BAUD_RATE

instance (status : Nat) : Decidable (isConfigFault status) := by
  unfold isConfigFault; infer_instance

/-! ## Verification harness (EEPROM), built with `WRITE_ONCE = 0` and `CATCH_GLITCH = 0` -/

/-- `memcmp(a, b, n)`: 0 when the first `n` bytes agree, otherwise the sign of the
lexicographic comparison. -/
def memcmp (a b : List Nat) (n : Nat) : Int :=
  if a.take n = b.take n then 0 else if a.take n < b.take n then -1 else 1

/-- Ghost record of one executed iteration of the `while (++count)` loop. -/
structure Iteration where
  count : Nat
  payload : List Nat
  writeStatus : Nat
  readStatus : Option Nat
  dataIN : Option (List Nat)
  deriving DecidableEq

/-- The iteration ended in a byte-exact match of the read-back payload with the written
payload: both transactions succeeded and the `EEPROM_DATA_LEN` bytes agree. -/
def Iteration.matched (e : Iteration) : Bool :=
  e.writeStatus == FT_OK && e.readStatus == some FT_OK &&
    (e.dataIN.map (fun d => d.take EEPROM_DATA_LEN)) == some (e.payload.take EEPROM_DATA_LEN)

/-- The payload the harness generates for a value of `count`:
byte `a` is `(a + count)` truncated to 8 bits. -/
def payloadOf (count : Nat) : List Nat :=
  (List.range EEPROM_DATA_LEN).map (fun a => (a + count) % UINT8_MOD)

/-- Locals of `TestDeviceEEPROM` with the globals, a flag telling that control has left the
`while` loop, and the ghost log of executed iterations (most recent first). -/
structure Harness (σ : Type) where
  world : World σ
  status : Nat
  glitch : Nat
  count : Nat
  dataOUT : List Nat
  address : Nat
  returned : Bool
  log : List Iteration

/-- Lines 366-369: `for (address = START; address < END; address++)
dataOUT[address] = address + (uint8)count;` -/
def prepare_data (count : Nat) (dataOUT : List Nat) : List Nat :=
  (List.range' START_ADDRESS_EEPROM (END_ADDRESS_EEPROM - START_ADDRESS_EEPROM)).foldl
    (fun d address => d.set address ((address + count % UINT8_MOD) % UINT8_MOD)) dataOUT

/-- Lines 421-431: the per-byte report printed on a mismatch. -/
def report_bytes (dataOUT dataIN : List Nat) (out : List Out) : List Out :=
  (List.range' START_ADDRESS_EEPROM (END_ADDRESS_EEPROM - START_ADDRESS_EEPROM)).foldl
    (fun o address =>
      if dataOUT.getD address 0 = dataIN.getD address 0 then
        Out.byteSame address (dataOUT.getD address 0) (dataIN.getD address 0) :: o
      else Out.byteError address (dataOUT.getD address 0) (dataIN.getD address 0) :: o) out

/-- Body of the `while (++count)` loop (lines 363-456), entered with `count` already
incremented.  The inner `do ... while (1)` leaves through a `break` on each of its three
paths, so its body runs once. -/
def eeprom_iteration {σ : Type} (T : Transport σ) (h : Harness σ) : Harness σ :=
  let dataOUT := prepare_data h.count h.dataOUT
  let address := START_ADDRESS_EEPROM
  let wr := write_bytes T h.world I2C_DEVICE_ADDRESS_EEPROM address dataOUT EEPROM_DATA_LEN
  if wr.1 ≠ FT_OK then
    { h with
      world := { wr.2 with out := Out.glitch0 h.count h.glitch :: wr.2.out }
      status := wr.1
      glitch := (h.glitch + 1) % UINT32_MOD
      dataOUT := dataOUT
      address := address
      log := ⟨h.count, dataOUT, wr.1, none, none⟩ :: h.log }
  else
    let dataIN := List.replicate EEPROM_DATA_LEN 0
    let rd := read_bytes T wr.2 I2C_DEVICE_ADDRESS_EEPROM address 1 dataIN EEPROM_DATA_LEN
    if rd.1 ≠ FT_OK then
      { h with
        world := { rd.2.1 with out := Out.glitch1 h.count h.glitch :: rd.2.1.out }
        status := rd.1
        glitch := (h.glitch + 1) % UINT32_MOD
        dataOUT := dataOUT
        address := address
        log := ⟨h.count, dataOUT, wr.1, some rd.1, some rd.2.2⟩ :: h.log }
    else if memcmp rd.2.2 dataOUT EEPROM_DATA_LEN = 0 then
      { h with
        world := { rd.2.1 with out := Out.same EEPROM_DATA_LEN h.glitch :: rd.2.1.out }
        status := rd.1
        dataOUT := dataOUT
        address := address
        log := ⟨h.count, dataOUT, wr.1, some rd.1, some rd.2.2⟩ :: h.log }
    else
      { h with
        world := { rd.2.1 with out := report_bytes dataOUT rd.2.2 rd.2.1.out }
        status := rd.1
        glitch := (h.glitch + 1) % UINT32_MOD
        dataOUT := dataOUT
        address := END_ADDRESS_EEPROM
        log := ⟨h.count, dataOUT, wr.1, some rd.1, some rd.2.2⟩ :: h.log }

/-- One evaluation of the loop condition `++count` followed, when it is non-zero, by the
loop body; when `count` wraps to 0 control leaves the loop and the function returns. -/
def eeprom_step {σ : Type} (T : Transport σ) (h : Harness σ) : Harness σ :=
  if h.returned then h
  else
    let count := (h.count + 1) % UINT32_MOD
    if count ≠ 0 then eeprom_iteration T { h with count := count }
    else { h with count := count, returned := true }

/-- State of `TestDeviceEEPROM` on entry (lines 330-334). -/
def eeprom_entry {σ : Type} (w : World σ) : Harness σ :=
  { world := w, status := FT_OK, glitch := 0, count := 0,
    dataOUT := List.replicate EEPROM_DATA_LEN 0, address := 0, returned := false, log := [] }

/-- The first `n` steps of the loop from state `h`. -/
def eeprom_run {σ : Type} (T : Transport σ) : Nat → Harness σ → Harness σ
  | 0, h => h
  | n + 1, h => eeprom_run T n (eeprom_step T h)

/-- `TestDeviceEEPROM()` observed after `n` steps of its loop, started with globals `w`. -/
def TestDeviceEEPROM {σ : Type} (T : Transport σ) (w : World σ) (n : Nat) : Harness σ :=
  eeprom_run T n (eeprom_entry w)

/-! ## Proof-side vocabulary -/

/-- The retry loop of the data phase, as entered by `read_data`. -/
def read_data_loop {σ : Type} (T : Transport σ) (w : World σ) (status : Nat)
    (slaveAddress numBytes : Nat) : Nat × World σ :=
  retry_while (read_retry_body T slaveAddress numBytes read_options) 10
    (status ||| (I2C_DeviceRead T w slaveAddress numBytes read_options).1)
    { (I2C_DeviceRead T w slaveAddress numBytes read_options).2 with timeRead := stop_time }

/-- A recorded call is a write with the given arguments that left the buffer as it was. -/
def Call.isWriteOf (c : Call) (slaveAddress size : Nat) (buf : List Nat) (options : Nat) :
    Prop :=
  c.dir = Dir.write ∧ c.slaveAddress = slaveAddress ∧ c.sizeToTransfer = size ∧
    c.bufIn = buf ∧ c.options = options ∧ c.bufOut = buf

/-- A recorded call is a read with the given arguments. -/
def Call.isReadOf (c : Call) (slaveAddress size options : Nat) : Prop :=
  c.dir = Dir.read ∧ c.slaveAddress = slaveAddress ∧ c.sizeToTransfer = size ∧
    c.options = options

/-- Number of transport reads recorded in a trace. -/
def readCount (calls : List Call) : Nat :=
  calls.countP (fun c => decide (c.dir = Dir.read))

/-- Number of transport writes recorded in a trace. -/
def writeCount (calls : List Call) : Nat :=
  calls.countP (fun c => decide (c.dir = Dir.write))

/-- The most recent call of the trace is a data-phase read that returned `st` and left the
transfer buffer as it is now. -/
def ReadHead {σ : Type} (slaveAddress numBytes st : Nat) (v : World σ) : Prop :=
  ∃ c rest, v.calls = c :: rest ∧ c.isReadOf slaveAddress numBytes read_options ∧
    c.status = st ∧ c.bufOut = v.buffer ∧ c.bufOut = storeRead c.bufIn c.received numBytes

/-- The most recent call of the trace returned `st`. -/
def StatusHead {σ : Type} (st : Nat) (v : World σ) : Prop :=
  ∃ c rest, v.calls = c :: rest ∧ c.status = st

/-- The globals when the data phase of `read_bytes` is entered. -/
def read_entry {σ : Type} (T : Transport σ) (w : World σ)
    (slaveAddress registerAddress bRegisterAddress : Nat) : World σ :=
  if bRegisterAddress ≠ 0 then (read_select T w slaveAddress registerAddress).2 else w

/-- Number of logged iterations that did not end in a byte-exact match. -/
def nonMatching (log : List Iteration) : Nat :=
  (log.filter (fun e => !e.matched)).length

/-- Relation between an iteration and the one before it: the counter went up by one and the
payload changed. -/
def Fresh (later earlier : Iteration) : Prop :=
  later.count = earlier.count + 1 ∧ later.payload ≠ earlier.payload

/-- What holds of the harness state throughout a run of `TestDeviceEEPROM`. -/
def HarnessInv {σ : Type} (h : Harness σ) : Prop :=
  h.dataOUT.length = EEPROM_DATA_LEN ∧
  (∀ e ∈ h.log, e.payload = payloadOf e.count) ∧
  List.Chain' Fresh h.log ∧
  h.glitch = nonMatching h.log ∧
  (h.returned = false →
    h.count < UINT32_MOD ∧ h.log.length = h.count ∧ ∀ e, h.log.head? = some e → e.count = h.count) ∧
  (h.returned = true → h.log.length = UINT32_MOD - 1)

/-- The `write_bytes` call of one loop iteration (line 374). -/
@[reducible] def eeprom_write {σ : Type} (T : Transport σ) (h : Harness σ) : Nat × World σ :=
  write_bytes T h.world I2C_DEVICE_ADDRESS_EEPROM START_ADDRESS_EEPROM
    (prepare_data h.count h.dataOUT) EEPROM_DATA_LEN

/-- The `read_bytes` call of one loop iteration (line 390), made after the write. -/
@[reducible] def eeprom_read {σ : Type} (T : Transport σ) (h : Harness σ) :
    Nat × World σ × List Nat :=
  read_bytes T (eeprom_write T h).2 I2C_DEVICE_ADDRESS_EEPROM START_ADDRESS_EEPROM 1
    (List.replicate EEPROM_DATA_LEN 0) EEPROM_DATA_LEN

/-- The log entry of an iteration abandoned after its write. -/
@[reducible] def abandonedEntry {σ : Type} (T : Transport σ) (h : Harness σ) : Iteration :=
  ⟨h.count, prepare_data h.count h.dataOUT, (eeprom_write T h).1, none, none⟩

/-- The log entry of an iteration that went on to read back. -/
@[reducible] def readEntry {σ : Type} (T : Transport σ) (h : Harness σ) : Iteration :=
  ⟨h.count, prepare_data h.count h.dataOUT, (eeprom_write T h).1,
    some (eeprom_read T h).1, some (eeprom_read T h).2.2⟩

/-! ## Process exit and the ADC harness -/

/-- `#define I2C_DEVICE_ADDRESS_ADC 0x48` -/
def I2C_DEVICE_ADDRESS_ADC : Nat := 0x48

/-- `#define ADC_DATA_LEN 2` -/
def ADC_DATA_LEN : Nat := 2

/-- Outcome of a piece of the program that may call `exit`: either control goes on with a
value, or the process has terminated with an exit code (the globals are kept for
inspection). -/
inductive Proc (σ : Type) (α : Type) where
  | running (a : α)
  | exited (code : Nat) (w : World σ)

/-- The exit code, when the process has terminated. -/
def Proc.exitCode {σ α : Type} : Proc σ α → Option Nat
  | Proc.running _ => none
  | Proc.exited code _ => some code

/-- `APP_CHECK_STATUS(status)` (lines 58-59): when the status is not `FT_OK` it prints and
calls `exit(1)`. -/
def APP_CHECK_STATUS {σ : Type} (status : Nat) (w : World σ) : Proc σ (World σ) :=
  if status ≠ FT_OK then Proc.exited 1 { w with out := Out.statusNotOk status :: w.out }
  else Proc.running w

/-- Locals of `TestDeviceADC` with the globals; `inner` tells that control is inside the
`do ... while (1)` and goes round it again, `returned` that it has left the outer loop. -/
structure AdcHarness (σ : Type) where
  world : World σ
  status : Nat
  glitch : Nat
  count : Nat
  dataOUT : List Nat
  inner : Bool
  returned : Bool

/-- Lines 473-486 of `TestDeviceADC`: the locals, the write to the config register and
`APP_CHECK_STATUS` on its status. -/
def adc_entry {σ : Type} (T : Transport σ) (w : World σ) : Proc σ (AdcHarness σ) :=
  let dataOUT := ((List.replicate ADC_DATA_LEN 0).set 0 0x04).set 1 0x00
  let wr := write_bytes T w I2C_DEVICE_ADDRESS_ADC 0x1 dataOUT ADC_DATA_LEN
  match APP_CHECK_STATUS wr.1 wr.2 with
  | Proc.exited code v => Proc.exited code v
  | Proc.running v =>
    Proc.running
      { world := { v with out := Out.writeBytes wr.1 :: v.out }, status := wr.1, glitch := 0,
        count := 0, dataOUT := dataOUT, inner := false, returned := false }

/-- One pass through the body of the `do ... while (1)` of `TestDeviceADC` (lines 500-537,
`CATCH_GLITCH` off): on a match with a good status it leaves through `break`, otherwise it
counts a glitch and goes round again. -/
def adc_pass {σ : Type} (T : Transport σ) (h : AdcHarness σ) : AdcHarness σ :=
  let dataIN := List.replicate ADC_DATA_LEN 0
  let rd := read_bytes T h.world I2C_DEVICE_ADDRESS_ADC 0 0 dataIN ADC_DATA_LEN
  if memcmp rd.2.2 h.dataOUT ADC_DATA_LEN = 0 ∧ rd.1 = FT_OK then
    { h with
      world := { rd.2.1 with out := Out.adcSame ADC_DATA_LEN h.glitch :: rd.2.1.out }
      status := rd.1
      inner := false }
  else
    { h with
      world := { rd.2.1 with
        out := Out.pause :: Out.adcError rd.1 (h.dataOUT.getD 0 0) (h.dataOUT.getD 1 0)
          (rd.2.2.getD 0 0) (rd.2.2.getD 1 0) ((h.glitch + 1) % UINT32_MOD) :: rd.2.1.out }
      status := rd.1
      glitch := (h.glitch + 1) % UINT32_MOD
      inner := true }

/-- One step of the loops of `TestDeviceADC`: inside the `do ... while (1)` another pass;
otherwise the loop condition `++count` and, when it is non-zero, a first pass; when `count`
wraps to 0 the function returns. -/
def adc_step {σ : Type} (T : Transport σ) (h : AdcHarness σ) : AdcHarness σ :=
  if h.returned then h
  else if h.inner then adc_pass T h
  else
    let count := (h.count + 1) % UINT32_MOD
    if count ≠ 0 then adc_pass T { h with count := count }
    else { h with count := count, returned := true }

/-- The first `n` steps of the loops of `TestDeviceADC` from state `h`. -/
def adc_run {σ : Type} (T : Transport σ) : Nat → AdcHarness σ → AdcHarness σ
  | 0, h => h
  | n + 1, h => adc_run T n (adc_step T h)

/-- `TestDeviceADC()` observed after `n` steps of its loops, started with globals `w`. -/
def TestDeviceADC {σ : Type} (T : Transport σ) (w : World σ) (n : Nat) :
    Proc σ (AdcHarness σ) :=
  match adc_entry T w with
  | Proc.exited code v => Proc.exited code v
  | Proc.running h => Proc.running (adc_run T n h)

/-- `TestDeviceEEPROM()` as a process: built with `WRITE_ONCE = 0` it contains no call of
`exit` (its only `APP_CHECK_STATUS` is inside the `#if WRITE_ONCE` block, lines 337-352), so
control always goes on. -/
def TestDeviceEEPROM_process {σ : Type} (T : Transport σ) (w : World σ) (n : Nat) :
    Proc σ (Harness σ) :=
  Proc.running (TestDeviceEEPROM T w n)

/-- Like `echoTransport`, but every read delivers byte 3 altered (one added, modulo 256):
a data-integrity fault at index 3 only. -/
def corruptTransport : Transport (List Nat) where
  deviceWrite := fun mem _ size buffer _ =>
    (FT_OK, size, if 1 < size then (buffer.take size).drop 1 else mem)
  deviceRead := fun mem _ size _ _ =>
    (FT_OK, (mem.take size).set 3 ((mem.getD 3 0 + 1) % UINT8_MOD), size, mem)

/-! ## Read attempts in detail (specification side) -/

/-- Device state and transfer buffer after `k` consecutive identical `deviceRead` calls,
starting in device state `d` with buffer `buf`. -/
def readState {σ : Type} (T : Transport σ) (slaveAddress size options : Nat) :
    Nat → σ → List Nat → σ × List Nat
  | 0, d, buf => (d, buf)
  | k + 1, d, buf =>
    readState T slaveAddress size options k
      (T.deviceRead d slaveAddress size buf options).2.2.2
      (storeRead buf (T.deviceRead d slaveAddress size buf options).2.1 size)

/-- The bytes the transport hands over on the `k`-th (0-based) of consecutive identical
`deviceRead` calls. -/
def readReceived {σ : Type} (T : Transport σ) (slaveAddress size options : Nat) (k : Nat)
    (d : σ) (buf : List Nat) : List Nat :=
  (T.deviceRead (readState T slaveAddress size options k d buf).1 slaveAddress size
    (readState T slaveAddress size options k d buf).2 options).2.1

/-- A transport whose first read fails after handing over `9, 9, 9` and whose later reads
succeed handing over the single byte `1` (a short read); the state counts the calls. -/
def shortReadTransport : Transport Nat where
  deviceWrite := fun d _ size _ _ => (FT_OK, size, d + 1)
  deviceRead := fun d _ _ _ _ =>
    if d = 0 then (FT_IO_ERROR, [9, 9, 9], 0, d + 1) else (FT_OK, [1], 1, d + 1)

/-! ## Iterations of the EEPROM loop, seen from the transactions (specification side) -/

/-- The state in which the body of iteration `i + 1` of the loop of `TestDeviceEEPROM` is
entered: the state after `i` steps with `count` incremented to `i + 1`. -/
def iterationStart {σ : Type} (T : Transport σ) (w : World σ) (i : Nat) : Harness σ :=
  { TestDeviceEEPROM T w i with count := i + 1 }

/-- Whether the iteration entered in state `h` ends in a byte-exact match, read off what
`write_bytes` and `read_bytes` return there: both succeed and the 16 bytes read back are
the 16 bytes written. -/
def iterationMatched {σ : Type} (T : Transport σ) (h : Harness σ) : Bool :=
  decide ((eeprom_write T h).1 = FT_OK ∧ (eeprom_read T h).1 = FT_OK ∧
    (eeprom_read T h).2.2.take EEPROM_DATA_LEN
      = (prepare_data h.count h.dataOUT).take EEPROM_DATA_LEN)

/-- The globals left by the transactions of the iteration entered in state `h`: those after
`write_bytes` when it fails, those after `read_bytes` otherwise. -/
def iterationWorld {σ : Type} (T : Transport σ) (h : Harness σ) : World σ :=
  if (eeprom_write T h).1 ≠ FT_OK then (eeprom_write T h).2 else (eeprom_read T h).2.1

/-- The log entry of the iteration entered in state `h`, filled from what `write_bytes` and
`read_bytes` return there. -/
def iterationEntry {σ : Type} (T : Transport σ) (h : Harness σ) : Iteration :=
  if (eeprom_write T h).1 ≠ FT_OK then abandonedEntry T h else readEntry T h

/-! ## Basic facts about the state-passing primitives -/

@[simp] theorem check_noexit_dev {σ : Type} (st : Nat) (w : World σ) :
    (APP_CHECK_STATUS_NOEXIT st w).dev = w.dev := by
  unfold APP_CHECK_STATUS_NOEXIT; split <;> rfl

@[simp] theorem check_noexit_buffer {σ : Type} (st : Nat) (w : World σ) :
    (APP_CHECK_STATUS_NOEXIT st w).buffer = w.buffer := by
  unfold APP_CHECK_STATUS_NOEXIT; split <;> rfl

@[simp] theorem check_noexit_calls {σ : Type} (st : Nat) (w : World σ) :
    (APP_CHECK_STATUS_NOEXIT st w).calls = w.calls := by
  unfold APP_CHECK_STATUS_NOEXIT; split <;> rfl

theorem retry_while_ok {σ : Type} (body : Nat → World σ → Nat × World σ) (left : Nat)
    (w : World σ) : retry_while body left FT_OK w = (FT_OK, w) := by
  cases left <;> simp [retry_while]

theorem retry_while_fail {σ : Type} (body : Nat → World σ → Nat × World σ) (left st : Nat)
    (w : World σ) (h : st ≠ FT_OK) :
    retry_while body (left + 1) st w = retry_while body left (body st w).1 (body st w).2 := by
  simp [retry_while, h]

/-- Any property that holds when the loop is entered and that each retry carries over holds
when the loop is left. -/
theorem retry_while_inv {σ : Type} (body : Nat → World σ → Nat × World σ)
    (P : Nat → World σ → Prop)
    (hbody : ∀ st w, st ≠ FT_OK → P st w → P (body st w).1 (body st w).2) :
    ∀ (left st : Nat) (w : World σ), P st w →
      P (retry_while body left st w).1 (retry_while body left st w).2 := by
  intro left
  induction left with
  | zero => intro st w h; simpa [retry_while] using h
  | succ n ih =>
    intro st w h
    by_cases hst : st = FT_OK
    · subst hst; rw [retry_while_ok]; exact h
    · rw [retry_while_fail body n st w hst]
      exact ih _ _ (hbody st w hst h)

/-- How many calls a retry loop adds and which status it ends with, when the transport
fails on its next `f` attempts and then succeeds (if `f` attempts fit the budget `left`). -/
theorem retry_while_count {σ : Type} (body : Nat → World σ → Nat × World σ)
    (stat : Nat → World σ → Nat)
    (h0 : ∀ st w, (body st w).1 = stat 0 w)
    (hS : ∀ st w k, stat (k + 1) w = stat k (body st w).2)
    (hc : ∀ st w, (body st w).2.calls.length = w.calls.length + 1) :
    ∀ (left st : Nat) (w : World σ) (f : Nat), st ≠ FT_OK →
      (∀ k, k < f → stat k w ≠ FT_OK) → (f < left → stat f w = FT_OK) →
      (retry_while body left st w).2.calls.length = w.calls.length + min (f + 1) left ∧
      (0 < left → (retry_while body left st w).1 = stat (min (f + 1) left - 1) w) := by
  intro left
  induction left with
  | zero => intro st w f _ _ _; simp [retry_while]
  | succ n ih =>
    intro st w f hst hfail hok
    rw [retry_while_fail body n st w hst]
    cases f with
    | zero =>
      have h1 : (body st w).1 = FT_OK := by rw [h0]; exact hok (Nat.succ_pos n)
      rw [h1, retry_while_ok]
      refine ⟨by rw [hc]; simp, fun _ => ?_⟩
      simpa using (hok (Nat.succ_pos n)).symm
    | succ g =>
      have h1 : (body st w).1 ≠ FT_OK := by rw [h0]; exact hfail 0 (Nat.succ_pos g)
      have hf' : ∀ k, k < g → stat k (body st w).2 ≠ FT_OK := by
        intro k hk; rw [← hS]; exact hfail (k + 1) (by omega)
      have ho' : g < n → stat g (body st w).2 = FT_OK := by
        intro hg; rw [← hS]; exact hok (by omega)
      obtain ⟨ihc, ihs⟩ := ih (body st w).1 (body st w).2 g h1 hf' ho'
      refine ⟨by rw [ihc, hc]; omega, fun _ => ?_⟩
      cases n with
      | zero => simp [retry_while, h0]
      | succ m =>
        rw [ihs (Nat.succ_pos m), ← hS]
        congr 1
        omega

/-! ## Counting the attempts of each phase -/

theorem ft_ok_lor (s : Nat) : FT_OK ||| s = s := by
  simp [FT_OK]

/-- Attempts of a write phase: calls added and final status of the first call followed by
its retry loop, for either write loop body. -/
theorem write_phase_attempts {σ : Type} (T : Transport σ)
    (body : Nat → World σ → Nat × World σ) (slaveAddress size options : Nat)
    (hb1 : ∀ st w, (body st w).1 = (T.deviceWrite w.dev slaveAddress size w.buffer options).1)
    (hbd : ∀ st w, (body st w).2.dev
      = (T.deviceWrite w.dev slaveAddress size w.buffer options).2.2)
    (hbb : ∀ st w, (body st w).2.buffer = w.buffer)
    (hbc : ∀ st w, (body st w).2.calls.length = w.calls.length + 1)
    (w w3 : World σ) (f : Nat)
    (hd : w3.dev = (I2C_DeviceWrite T w slaveAddress size options).2.dev)
    (hbuf : w3.buffer = w.buffer)
    (hcalls : w3.calls = (I2C_DeviceWrite T w slaveAddress size options).2.calls)
    (hfail : ∀ k, k < f → writeAttempt T slaveAddress size w.buffer options k w.dev ≠ FT_OK)
    (hok : f < 11 → writeAttempt T slaveAddress size w.buffer options f w.dev = FT_OK) :
    (retry_while body 10 (I2C_DeviceWrite T w slaveAddress size options).1 w3).2.calls.length
        = w.calls.length + min (f + 1) 11 ∧
    (retry_while body 10 (I2C_DeviceWrite T w slaveAddress size options).1 w3).1
        = writeAttempt T slaveAddress size w.buffer options (min (f + 1) 11 - 1) w.dev := by
  have hfirst : (I2C_DeviceWrite T w slaveAddress size options).1
      = writeAttempt T slaveAddress size w.buffer options 0 w.dev := rfl
  have hlen : w3.calls.length = w.calls.length + 1 := by rw [hcalls]; simp [I2C_DeviceWrite]
  cases f with
  | zero =>
    have h1 := hok (by omega)
    rw [hfirst, h1, retry_while_ok]
    exact ⟨by simpa using hlen, by simpa using h1.symm⟩
  | succ g =>
    have h1 : (I2C_DeviceWrite T w slaveAddress size options).1 ≠ FT_OK := by
      rw [hfirst]; exact hfail 0 (Nat.succ_pos g)
    have key := retry_while_count body
      (fun k v => writeAttempt T slaveAddress size v.buffer options k v.dev)
      (by intro st v; simp only [hb1]; rfl)
      (by intro st v k; simp only [hbd, hbb]; rfl)
      hbc 10 _ w3 g h1
      (by
        intro k hk
        show writeAttempt T slaveAddress size w3.buffer options k w3.dev ≠ FT_OK
        rw [hbuf, hd]; exact hfail (k + 1) (by omega))
      (by
        intro hg
        show writeAttempt T slaveAddress size w3.buffer options g w3.dev = FT_OK
        rw [hbuf, hd]; exact hok (by omega))
    obtain ⟨kc, ks⟩ := key
    refine ⟨by rw [kc, hlen]; omega, ?_⟩
    rw [ks (by decide)]
    show writeAttempt T slaveAddress size w3.buffer options _ w3.dev = _
    rw [hbuf, hd]
    have e : min (g + 1 + 1) 11 - 1 = (min (g + 1) 10 - 1) + 1 := by omega
    rw [e]; rfl

theorem write_retry_body_status {σ : Type} (T : Transport σ) (slaveAddress size options : Nat)
    (st : Nat) (w : World σ) :
    (write_retry_body T slaveAddress size options st w).1
      = (T.deviceWrite w.dev slaveAddress size w.buffer options).1 := by
  simp [write_retry_body, I2C_DeviceWrite]

theorem write_retry_body_dev {σ : Type} (T : Transport σ) (slaveAddress size options : Nat)
    (st : Nat) (w : World σ) :
    (write_retry_body T slaveAddress size options st w).2.dev
      = (T.deviceWrite w.dev slaveAddress size w.buffer options).2.2 := by
  simp [write_retry_body, I2C_DeviceWrite]

theorem write_retry_body_buffer {σ : Type} (T : Transport σ) (slaveAddress size options : Nat)
    (st : Nat) (w : World σ) :
    (write_retry_body T slaveAddress size options st w).2.buffer = w.buffer := by
  simp [write_retry_body, I2C_DeviceWrite]

theorem write_retry_body_calls {σ : Type} (T : Transport σ) (slaveAddress size options : Nat)
    (st : Nat) (w : World σ) :
    (write_retry_body T slaveAddress size options st w).2.calls
      = ⟨Dir.write, slaveAddress, size, w.buffer, options,
          (T.deviceWrite w.dev slaveAddress size w.buffer options).1, w.buffer, []⟩
        :: w.calls := by
  simp [write_retry_body, I2C_DeviceWrite]

theorem select_retry_body_status {σ : Type} (T : Transport σ) (slaveAddress size options : Nat)
    (st : Nat) (w : World σ) :
    (select_retry_body T slaveAddress size options st w).1
      = (T.deviceWrite w.dev slaveAddress size w.buffer options).1 := by
  simp [select_retry_body, I2C_DeviceWrite]

theorem select_retry_body_dev {σ : Type} (T : Transport σ) (slaveAddress size options : Nat)
    (st : Nat) (w : World σ) :
    (select_retry_body T slaveAddress size options st w).2.dev
      = (T.deviceWrite w.dev slaveAddress size w.buffer options).2.2 := by
  simp [select_retry_body, I2C_DeviceWrite]

theorem select_retry_body_buffer {σ : Type} (T : Transport σ) (slaveAddress size options : Nat)
    (st : Nat) (w : World σ) :
    (select_retry_body T slaveAddress size options st w).2.buffer = w.buffer := by
  simp [select_retry_body, I2C_DeviceWrite]

theorem select_retry_body_calls {σ : Type} (T : Transport σ) (slaveAddress size options : Nat)
    (st : Nat) (w : World σ) :
    (select_retry_body T slaveAddress size options st w).2.calls
      = ⟨Dir.write, slaveAddress, size, w.buffer, options,
          (T.deviceWrite w.dev slaveAddress size w.buffer options).1, w.buffer, []⟩
        :: w.calls := by
  simp [select_retry_body, I2C_DeviceWrite]

theorem read_retry_body_status {σ : Type} (T : Transport σ) (slaveAddress size options : Nat)
    (st : Nat) (w : World σ) :
    (read_retry_body T slaveAddress size options st w).1
      = (T.deviceRead w.dev slaveAddress size w.buffer options).1 := by
  simp [read_retry_body, I2C_DeviceRead]

theorem read_retry_body_dev {σ : Type} (T : Transport σ) (slaveAddress size options : Nat)
    (st : Nat) (w : World σ) :
    (read_retry_body T slaveAddress size options st w).2.dev
      = (T.deviceRead w.dev slaveAddress size w.buffer options).2.2.2 := by
  simp [read_retry_body, I2C_DeviceRead]

theorem read_retry_body_buffer {σ : Type} (T : Transport σ) (slaveAddress size options : Nat)
    (st : Nat) (w : World σ) :
    (read_retry_body T slaveAddress size options st w).2.buffer
      = storeRead w.buffer (T.deviceRead w.dev slaveAddress size w.buffer options).2.1 size := by
  simp [read_retry_body, I2C_DeviceRead]

theorem read_retry_body_calls {σ : Type} (T : Transport σ) (slaveAddress size options : Nat)
    (st : Nat) (w : World σ) :
    (read_retry_body T slaveAddress size options st w).2.calls
      = ⟨Dir.read, slaveAddress, size, w.buffer, options,
          (T.deviceRead w.dev slaveAddress size w.buffer options).1,
          storeRead w.buffer (T.deviceRead w.dev slaveAddress size w.buffer options).2.1 size,
          (T.deviceRead w.dev slaveAddress size w.buffer options).2.1⟩
        :: w.calls := by
  simp [read_retry_body, I2C_DeviceRead]

/-- Attempts of `write_bytes`. -/
theorem write_bytes_attempts {σ : Type} (T : Transport σ) (w : World σ)
    (slaveAddress registerAddress : Nat) (data : List Nat) (numBytes f : Nat)
    (hfail : ∀ k, k < f → writeAttempt T slaveAddress ((1 + numBytes) % UINT32_MOD)
      (frame w.buffer registerAddress data numBytes) write_options k w.dev ≠ FT_OK)
    (hok : f < 11 → writeAttempt T slaveAddress ((1 + numBytes) % UINT32_MOD)
      (frame w.buffer registerAddress data numBytes) write_options f w.dev = FT_OK) :
    (write_bytes T w slaveAddress registerAddress data numBytes).2.calls.length
        = w.calls.length + min (f + 1) 11 ∧
    (write_bytes T w slaveAddress registerAddress data numBytes).1
        = writeAttempt T slaveAddress ((1 + numBytes) % UINT32_MOD)
            (frame w.buffer registerAddress data numBytes) write_options
            (min (f + 1) 11 - 1) w.dev := by
  exact write_phase_attempts T _ slaveAddress _ write_options
    (write_retry_body_status T _ _ _) (write_retry_body_dev T _ _ _)
    (write_retry_body_buffer T _ _ _)
    (by intro st v; rw [write_retry_body_calls]; rfl)
    { w with buffer := frame w.buffer registerAddress data numBytes } _ f rfl rfl rfl hfail hok

/-- Attempts of the register-select phase of `read_bytes`. -/
theorem read_select_attempts {σ : Type} (T : Transport σ) (w : World σ)
    (slaveAddress registerAddress f : Nat)
    (hfail : ∀ k, k < f → writeAttempt T slaveAddress 1
      (w.buffer.set 0 registerAddress) write_options k w.dev ≠ FT_OK)
    (hok : f < 11 → writeAttempt T slaveAddress 1
      (w.buffer.set 0 registerAddress) write_options f w.dev = FT_OK) :
    (read_select T w slaveAddress registerAddress).2.calls.length
        = w.calls.length + min (f + 1) 11 ∧
    (read_select T w slaveAddress registerAddress).1
        = writeAttempt T slaveAddress 1 (w.buffer.set 0 registerAddress) write_options
            (min (f + 1) 11 - 1) w.dev := by
  exact write_phase_attempts T _ slaveAddress 1 write_options
    (select_retry_body_status T _ _ _) (select_retry_body_dev T _ _ _)
    (select_retry_body_buffer T _ _ _)
    (by intro st v; rw [select_retry_body_calls]; rfl)
    { w with buffer := w.buffer.set 0 registerAddress } _ f rfl rfl rfl hfail hok

theorem read_data_status {σ : Type} (T : Transport σ) (w : World σ) (status : Nat)
    (slaveAddress : Nat) (data : List Nat) (numBytes : Nat) :
    (read_data T w status slaveAddress data numBytes).1
      = (read_data_loop T w status slaveAddress numBytes).1 := by
  unfold read_data read_data_loop
  simp only []
  split <;> rfl

theorem read_data_world {σ : Type} (T : Transport σ) (w : World σ) (status : Nat)
    (slaveAddress : Nat) (data : List Nat) (numBytes : Nat) :
    (read_data T w status slaveAddress data numBytes).2.1
      = (read_data_loop T w status slaveAddress numBytes).2 := by
  unfold read_data read_data_loop
  simp only []
  split <;> rfl

theorem read_data_data {σ : Type} (T : Transport σ) (w : World σ) (status : Nat)
    (slaveAddress : Nat) (data : List Nat) (numBytes : Nat) :
    (read_data T w status slaveAddress data numBytes).2.2
      = if (read_data_loop T w status slaveAddress numBytes).1 = FT_OK then
          memcpy data 0 (read_data_loop T w status slaveAddress numBytes).2.buffer numBytes
        else data := by
  unfold read_data read_data_loop
  simp only []
  split <;> rfl

/-- Attempts of the data phase of `read_bytes` when it is entered with `status = FT_OK`. -/
theorem read_data_attempts {σ : Type} (T : Transport σ) (w : World σ)
    (slaveAddress numBytes f : Nat)
    (hfail : ∀ k, k < f →
      readAttempt T slaveAddress numBytes read_options k w.dev w.buffer ≠ FT_OK)
    (hok : f < 11 → readAttempt T slaveAddress numBytes read_options f w.dev w.buffer = FT_OK) :
    (read_data_loop T w FT_OK slaveAddress numBytes).2.calls.length
        = w.calls.length + min (f + 1) 11 ∧
    (read_data_loop T w FT_OK slaveAddress numBytes).1
        = readAttempt T slaveAddress numBytes read_options (min (f + 1) 11 - 1)
            w.dev w.buffer := by
  unfold read_data_loop
  rw [ft_ok_lor]
  have hfirst : (I2C_DeviceRead T w slaveAddress numBytes read_options).1
      = readAttempt T slaveAddress numBytes read_options 0 w.dev w.buffer := rfl
  cases f with
  | zero =>
    have h1 := hok (by omega)
    rw [hfirst, h1, retry_while_ok]
    exact ⟨by simp [I2C_DeviceRead], by simpa using h1.symm⟩
  | succ g =>
    have h1 : (I2C_DeviceRead T w slaveAddress numBytes read_options).1 ≠ FT_OK := by
      rw [hfirst]; exact hfail 0 (Nat.succ_pos g)
    have key := retry_while_count (read_retry_body T slaveAddress numBytes read_options)
      (fun k v => readAttempt T slaveAddress numBytes read_options k v.dev v.buffer)
      (by intro st v; simp only [read_retry_body_status]; rfl)
      (by intro st v k; simp only [read_retry_body_dev, read_retry_body_buffer]; rfl)
      (by intro st v; rw [read_retry_body_calls]; rfl) 10 _
      { (I2C_DeviceRead T w slaveAddress numBytes read_options).2 with timeRead := stop_time }
      g h1
      (by intro k hk; exact hfail (k + 1) (by omega))
      (by intro hg; exact hok (by omega))
    obtain ⟨kc, ks⟩ := key
    refine ⟨by rw [kc]; simp [I2C_DeviceRead]; omega, ?_⟩
    rw [ks (by decide)]
    have e : min (g + 1 + 1) 11 - 1 = (min (g + 1) 10 - 1) + 1 := by omega
    rw [e]; rfl

/-! ## C1: retry bound -/

/-- C1, as stated, fails: with a transport whose first 10 attempts fail and whose later
attempts succeed, `write_bytes` issues 11 transport calls (not `min (10+1) 10 = 10`) and
returns `FT_OK`, the status of attempt 11 (not the failing status of attempt 10); with a
transport that always fails, `write_bytes` and the data phase of `read_bytes` issue 11
calls each. -/
theorem retry_bound_ten_counterexample :
    (write_bytes (failFirst 10) (World.init 0) I2C_DEVICE_ADDRESS_EEPROM 0 [1, 2] 2).2.calls.length
        = 11 ∧
    ¬ ((write_bytes (failFirst 10) (World.init 0) I2C_DEVICE_ADDRESS_EEPROM 0 [1, 2] 2).2.calls.length
        = min (10 + 1) 10) ∧
    (write_bytes (failFirst 10) (World.init 0) I2C_DEVICE_ADDRESS_EEPROM 0 [1, 2] 2).1 = FT_OK ∧
    writeAttempt (failFirst 10) I2C_DEVICE_ADDRESS_EEPROM 3
        (frame (World.init 0).buffer 0 [1, 2] 2) write_options (min (10 + 1) 10 - 1) 0
        = FT_IO_ERROR ∧
    (write_bytes (alwaysStatus FT_IO_ERROR []) (World.init ()) I2C_DEVICE_ADDRESS_EEPROM 0
        [1, 2] 2).2.calls.length = 11 ∧
    (read_bytes (alwaysStatus FT_IO_ERROR []) (World.init ()) I2C_DEVICE_ADDRESS_EEPROM 0 0
        [0, 0] 2).2.1.calls.length = 11 := by
  decide

/-- C1 (amended): when the transport fails on the first `f` attempts and succeeds on attempt
`f + 1` (if `f < 11`), `write_bytes`, and `read_bytes` called with `bRegisterAddress = 0`,
issue exactly `min (f + 1) 11` transport calls (1 initial + at most 10 retries) and return
the status of attempt number `min (f + 1) 11`; when at least the first 11 attempts fail
(in particular when every attempt fails) exactly 11 calls are issued and the returned
status is a failing one. -/
theorem retry_bound_eleven {σ : Type} (T : Transport σ) (w : World σ)
    (slaveAddress registerAddress : Nat) (data : List Nat) (numBytes fw fr : Nat)
    (hwfail : ∀ k, k < fw → writeAttempt T slaveAddress ((1 + numBytes) % UINT32_MOD)
      (frame w.buffer registerAddress data numBytes) write_options k w.dev ≠ FT_OK)
    (hwok : fw < 11 → writeAttempt T slaveAddress ((1 + numBytes) % UINT32_MOD)
      (frame w.buffer registerAddress data numBytes) write_options fw w.dev = FT_OK)
    (hrfail : ∀ k, k < fr →
      readAttempt T slaveAddress numBytes read_options k w.dev w.buffer ≠ FT_OK)
    (hrok : fr < 11 →
      readAttempt T slaveAddress numBytes read_options fr w.dev w.buffer = FT_OK) :
    ((write_bytes T w slaveAddress registerAddress data numBytes).2.calls.length
        = w.calls.length + min (fw + 1) 11 ∧
     (write_bytes T w slaveAddress registerAddress data numBytes).1
        = writeAttempt T slaveAddress ((1 + numBytes) % UINT32_MOD)
            (frame w.buffer registerAddress data numBytes) write_options
            (min (fw + 1) 11 - 1) w.dev ∧
     (11 ≤ fw →
        (write_bytes T w slaveAddress registerAddress data numBytes).2.calls.length
          = w.calls.length + 11 ∧
        (write_bytes T w slaveAddress registerAddress data numBytes).1 ≠ FT_OK)) ∧
    ((read_bytes T w slaveAddress registerAddress 0 data numBytes).2.1.calls.length
        = w.calls.length + min (fr + 1) 11 ∧
     (read_bytes T w slaveAddress registerAddress 0 data numBytes).1
        = readAttempt T slaveAddress numBytes read_options (min (fr + 1) 11 - 1)
            w.dev w.buffer ∧
     (11 ≤ fr →
        (read_bytes T w slaveAddress registerAddress 0 data numBytes).2.1.calls.length
          = w.calls.length + 11 ∧
        (read_bytes T w slaveAddress registerAddress 0 data numBytes).1 ≠ FT_OK)) := by
  obtain ⟨wc, ws⟩ := write_bytes_attempts T w slaveAddress registerAddress data numBytes fw
    hwfail hwok
  obtain ⟨rc, rs⟩ := read_data_attempts T w slaveAddress numBytes fr hrfail hrok
  have hrd1 : (read_bytes T w slaveAddress registerAddress 0 data numBytes).1
      = (read_data_loop T w FT_OK slaveAddress numBytes).1 := by
    simp [read_bytes, read_data_status]
  have hrd2 : (read_bytes T w slaveAddress registerAddress 0 data numBytes).2.1
      = (read_data_loop T w FT_OK slaveAddress numBytes).2 := by
    simp [read_bytes, read_data_world]
  refine ⟨⟨wc, ws, fun h11 => ⟨by rw [wc]; omega, ?_⟩⟩,
    ⟨by rw [hrd2]; exact rc, by rw [hrd1]; exact rs, fun h11 => ⟨by rw [hrd2, rc]; omega, ?_⟩⟩⟩
  · rw [ws]
    have e : min (fw + 1) 11 - 1 = 10 := by omega
    rw [e]; exact hwfail 10 (by omega)
  · rw [hrd1, rs]
    have e : min (fr + 1) 11 - 1 = 10 := by omega
    rw [e]; exact hrfail 10 (by omega)

/-- Witness for `retry_bound_eleven`: a transport failing 3 times, then succeeding. -/
theorem retry_bound_eleven_witness :
    ((write_bytes (failFirst 3) (World.init 0) I2C_DEVICE_ADDRESS_EEPROM 0 [1, 2] 2).2.calls.length
        = (World.init 0).calls.length + min (3 + 1) 11 ∧
     (write_bytes (failFirst 3) (World.init 0) I2C_DEVICE_ADDRESS_EEPROM 0 [1, 2] 2).1
        = writeAttempt (failFirst 3) I2C_DEVICE_ADDRESS_EEPROM ((1 + 2) % UINT32_MOD)
            (frame (World.init 0).buffer 0 [1, 2] 2) write_options
            (min (3 + 1) 11 - 1) (World.init 0).dev ∧
     (11 ≤ 3 →
        (write_bytes (failFirst 3) (World.init 0) I2C_DEVICE_ADDRESS_EEPROM 0 [1, 2] 2).2.calls.length
          = (World.init 0).calls.length + 11 ∧
        (write_bytes (failFirst 3) (World.init 0) I2C_DEVICE_ADDRESS_EEPROM 0 [1, 2] 2).1
          ≠ FT_OK)) ∧
    ((read_bytes (failFirst 3) (World.init 0) I2C_DEVICE_ADDRESS_EEPROM 0 0 [1, 2] 2).2.1.calls.length
        = (World.init 0).calls.length + min (3 + 1) 11 ∧
     (read_bytes (failFirst 3) (World.init 0) I2C_DEVICE_ADDRESS_EEPROM 0 0 [1, 2] 2).1
        = readAttempt (failFirst 3) I2C_DEVICE_ADDRESS_EEPROM 2 read_options
            (min (3 + 1) 11 - 1) (World.init 0).dev (World.init 0).buffer ∧
     (11 ≤ 3 →
        (read_bytes (failFirst 3) (World.init 0) I2C_DEVICE_ADDRESS_EEPROM 0 0 [1, 2] 2).2.1.calls.length
          = (World.init 0).calls.length + 11 ∧
        (read_bytes (failFirst 3) (World.init 0) I2C_DEVICE_ADDRESS_EEPROM 0 0 [1, 2] 2).1
          ≠ FT_OK)) :=
  retry_bound_eleven (failFirst 3) (World.init 0) I2C_DEVICE_ADDRESS_EEPROM 0 [1, 2] 2 3 3
    (by decide) (by decide) (by decide) (by decide)

/-! ## Traces of the phases -/

theorem issued_append (new old : List Call) : issued (new ++ old) old.length = new := by
  simp [issued]

theorem readCount_append_writes (new old : List Call) (h : ∀ c ∈ new, c.dir = Dir.write) :
    readCount (new ++ old) = readCount old := by
  unfold readCount
  rw [List.countP_append]
  have : List.countP (fun c => decide (c.dir = Dir.read)) new = 0 := by
    rw [List.countP_eq_zero]
    intro c hc
    simp [h c hc]
  omega

theorem readCount_append_writes' (new old : List Call) (h : ∀ c ∈ old, c.dir = Dir.write) :
    readCount (new ++ old) = readCount new := by
  unfold readCount
  rw [List.countP_append]
  have : List.countP (fun c => decide (c.dir = Dir.read)) old = 0 := by
    rw [List.countP_eq_zero]
    intro c hc
    simp [h c hc]
  omega

/-- Trace of a write retry loop: the buffer is left alone and every call added is the same
write transaction. -/
theorem write_loop_trace {σ : Type} (body : Nat → World σ → Nat × World σ)
    (slaveAddress size options : Nat)
    (hbb : ∀ st v, (body st v).2.buffer = v.buffer)
    (hbc : ∀ st v, ∃ s, (body st v).2.calls
      = ⟨Dir.write, slaveAddress, size, v.buffer, options, s, v.buffer, []⟩ :: v.calls)
    (left st : Nat) (w : World σ) :
    (retry_while body left st w).2.buffer = w.buffer ∧
    ∃ new, (retry_while body left st w).2.calls = new ++ w.calls ∧
      ∀ c ∈ new, c.isWriteOf slaveAddress size w.buffer options := by
  refine retry_while_inv body
    (fun _ v => v.buffer = w.buffer ∧
      ∃ new, v.calls = new ++ w.calls ∧ ∀ c ∈ new, c.isWriteOf slaveAddress size w.buffer options)
    ?_ left st w ⟨rfl, [], rfl, by simp⟩
  rintro s v _ ⟨hv, new, hnew, hall⟩
  refine ⟨by rw [hbb, hv], ?_⟩
  obtain ⟨s', hs'⟩ := hbc s v
  refine ⟨⟨Dir.write, slaveAddress, size, v.buffer, options, s', v.buffer, []⟩ :: new, ?_, ?_⟩
  · rw [hs', hnew]; rfl
  · intro c hc
    rcases List.mem_cons.mp hc with rfl | hc
    · exact ⟨rfl, rfl, rfl, hv, rfl, hv⟩
    · exact hall c hc

/-- Trace of the register-select phase. -/
theorem read_select_trace {σ : Type} (T : Transport σ) (w : World σ)
    (slaveAddress registerAddress : Nat) :
    (read_select T w slaveAddress registerAddress).2.buffer = w.buffer.set 0 registerAddress ∧
    ∃ new, (read_select T w slaveAddress registerAddress).2.calls = new ++ w.calls ∧
      new ≠ [] ∧
      ∀ c ∈ new, c.isWriteOf slaveAddress 1 (w.buffer.set 0 registerAddress) write_options := by
  obtain ⟨hb, new, hnew, hall⟩ := write_loop_trace
    (select_retry_body T slaveAddress 1 write_options) slaveAddress 1 write_options
    (select_retry_body_buffer T _ _ _)
    (fun st v => ⟨_, select_retry_body_calls T _ _ _ st v⟩) 10
    (I2C_DeviceWrite T { w with buffer := w.buffer.set 0 registerAddress } slaveAddress 1
      write_options).1
    (I2C_DeviceWrite T { w with buffer := w.buffer.set 0 registerAddress } slaveAddress 1
      write_options).2
  refine ⟨hb, new ++ [⟨Dir.write, slaveAddress, 1, w.buffer.set 0 registerAddress,
    write_options,
    (T.deviceWrite w.dev slaveAddress 1 (w.buffer.set 0 registerAddress) write_options).1,
    w.buffer.set 0 registerAddress, []⟩], ?_, by simp, ?_⟩
  · refine Eq.trans hnew ?_
    simp [I2C_DeviceWrite]
  · intro c hc
    rcases List.mem_append.mp hc with hc | hc
    · exact hall c hc
    · rw [List.mem_singleton] at hc
      subst hc
      exact ⟨rfl, rfl, rfl, rfl, rfl, rfl⟩

/-- Trace of `write_bytes`. -/
theorem write_bytes_trace {σ : Type} (T : Transport σ) (w : World σ)
    (slaveAddress registerAddress : Nat) (data : List Nat) (numBytes : Nat) :
    (write_bytes T w slaveAddress registerAddress data numBytes).2.buffer
      = frame w.buffer registerAddress data numBytes ∧
    ∃ new, (write_bytes T w slaveAddress registerAddress data numBytes).2.calls
        = new ++ w.calls ∧ new ≠ [] ∧
      ∀ c ∈ new, c.isWriteOf slaveAddress ((1 + numBytes) % UINT32_MOD)
        (frame w.buffer registerAddress data numBytes) write_options := by
  obtain ⟨hb, new, hnew, hall⟩ := write_loop_trace
    (write_retry_body T slaveAddress ((1 + numBytes) % UINT32_MOD) write_options)
    slaveAddress ((1 + numBytes) % UINT32_MOD) write_options
    (write_retry_body_buffer T _ _ _)
    (fun st v => ⟨_, write_retry_body_calls T _ _ _ st v⟩) 10
    (I2C_DeviceWrite T { w with buffer := frame w.buffer registerAddress data numBytes }
      slaveAddress ((1 + numBytes) % UINT32_MOD) write_options).1
    { (I2C_DeviceWrite T { w with buffer := frame w.buffer registerAddress data numBytes }
      slaveAddress ((1 + numBytes) % UINT32_MOD) write_options).2 with timeWrite := stop_time }
  refine ⟨hb, new ++ [⟨Dir.write, slaveAddress, (1 + numBytes) % UINT32_MOD,
    frame w.buffer registerAddress data numBytes, write_options,
    (T.deviceWrite w.dev slaveAddress ((1 + numBytes) % UINT32_MOD)
      (frame w.buffer registerAddress data numBytes) write_options).1,
    frame w.buffer registerAddress data numBytes, []⟩], ?_, by simp, ?_⟩
  · refine Eq.trans hnew ?_
    simp [I2C_DeviceWrite]
  · intro c hc
    rcases List.mem_append.mp hc with hc | hc
    · exact hall c hc
    · rw [List.mem_singleton] at hc
      subst hc
      exact ⟨rfl, rfl, rfl, rfl, rfl, rfl⟩

/-! ## C2: two-phase independence of `read_bytes` -/

/-- C2: when `read_bytes` is called with `bRegisterAddress` set and the register-select
write fails on every one of its attempts (there are 11), then no transport read is invoked
(the number of reads in the trace is unchanged, all 11 calls issued are writes), the
caller's `data` is returned unchanged, and the status returned is the failing status of the
last register-select attempt. -/
theorem select_failure_aborts_read {σ : Type} (T : Transport σ) (w : World σ)
    (slaveAddress registerAddress bRegisterAddress : Nat) (data : List Nat) (numBytes : Nat)
    (hb : bRegisterAddress ≠ 0)
    (hfail : ∀ k, k < 11 → writeAttempt T slaveAddress 1
      (w.buffer.set 0 registerAddress) write_options k w.dev ≠ FT_OK) :
    (read_bytes T w slaveAddress registerAddress bRegisterAddress data numBytes).2.2 = data ∧
    (read_bytes T w slaveAddress registerAddress bRegisterAddress data numBytes).1 ≠ FT_OK ∧
    (read_bytes T w slaveAddress registerAddress bRegisterAddress data numBytes).1
      = writeAttempt T slaveAddress 1 (w.buffer.set 0 registerAddress) write_options 10 w.dev ∧
    readCount (read_bytes T w slaveAddress registerAddress bRegisterAddress data
      numBytes).2.1.calls = readCount w.calls ∧
    (∀ c ∈ issued (read_bytes T w slaveAddress registerAddress bRegisterAddress data
      numBytes).2.1.calls w.calls.length, c.dir = Dir.write) ∧
    (issued (read_bytes T w slaveAddress registerAddress bRegisterAddress data
      numBytes).2.1.calls w.calls.length).length = 11 := by
  obtain ⟨sc, ss⟩ := read_select_attempts T w slaveAddress registerAddress 11 hfail (by omega)
  have hs : (read_select T w slaveAddress registerAddress).1 ≠ FT_OK := by
    rw [ss]; exact hfail 10 (by omega)
  obtain ⟨-, new, hnew, -, hall⟩ := read_select_trace T w slaveAddress registerAddress
  have hr : read_bytes T w slaveAddress registerAddress bRegisterAddress data numBytes
      = ((read_select T w slaveAddress registerAddress).1,
         (read_select T w slaveAddress registerAddress).2, data) := by
    simp [read_bytes, hb, hs]
  rw [hr]
  have hlen : new.length = 11 := by
    have := sc
    rw [hnew, List.length_append] at this
    omega
  refine ⟨rfl, hs, ss, ?_, ?_, ?_⟩
  · show readCount (read_select T w slaveAddress registerAddress).2.calls = _
    rw [hnew]
    exact readCount_append_writes new w.calls (fun c hc => (hall c hc).1)
  · show ∀ c ∈ issued (read_select T w slaveAddress registerAddress).2.calls _, _
    rw [hnew, issued_append]
    exact fun c hc => (hall c hc).1
  · show (issued (read_select T w slaveAddress registerAddress).2.calls _).length = 11
    rw [hnew, issued_append]; exact hlen

/-- Witness for `select_failure_aborts_read`: a transport that always fails. -/
theorem select_failure_aborts_read_witness :
    (1 : Nat) ≠ 0 ∧
    (read_bytes (alwaysStatus FT_IO_ERROR [9, 9]) (World.init ()) I2C_DEVICE_ADDRESS_EEPROM 0 1
      [7, 7] 2).2.2 = [7, 7] ∧
    (read_bytes (alwaysStatus FT_IO_ERROR [9, 9]) (World.init ()) I2C_DEVICE_ADDRESS_EEPROM 0 1
      [7, 7] 2).1 ≠ FT_OK ∧
    readCount (read_bytes (alwaysStatus FT_IO_ERROR [9, 9]) (World.init ())
      I2C_DEVICE_ADDRESS_EEPROM 0 1 [7, 7] 2).2.1.calls = readCount (World.init ()).calls :=
  have h := select_failure_aborts_read (alwaysStatus FT_IO_ERROR [9, 9]) (World.init ())
    I2C_DEVICE_ADDRESS_EEPROM 0 1 [7, 7] 2 (by decide) (by decide)
  ⟨by decide, h.1, h.2.1, h.2.2.2.1⟩

/-! ## The data phase -/

theorem storeRead_length (buf r : List Nat) (len : Nat) (h : len ≤ buf.length) :
    (storeRead buf r len).length = buf.length := by
  simp only [storeRead, List.length_append, List.length_take, List.length_drop]
  omega

theorem storeRead_take (buf r : List Nat) (len : Nat) (h : len ≤ r.length) :
    (storeRead buf r len).take len = r.take len := by
  unfold storeRead
  have hl : (r.take len).length = len := by simp [h]
  rw [List.take_append_eq_append_take, hl]
  simp

theorem memcpy_zero_take (dst src : List Nat) (n : Nat) (h : n ≤ src.length) :
    (memcpy dst 0 src n).take n = src.take n := by
  unfold memcpy
  have hl : (src.take n).length = n := by simp [h]
  simp only [List.take_zero, List.nil_append, Nat.zero_add]
  rw [List.take_append_eq_append_take, hl]
  simp

theorem memcpy_zero_drop (dst src : List Nat) (n : Nat) (h : n ≤ src.length) :
    (memcpy dst 0 src n).drop n = dst.drop n := by
  unfold memcpy
  have hl : (src.take n).length = n := by simp [h]
  simp only [List.take_zero, List.nil_append, Nat.zero_add]
  rw [List.drop_append_eq_append_drop, hl]
  simp

theorem read_retry_body_head {σ : Type} (T : Transport σ) (slaveAddress size options : Nat)
    (st : Nat) (v : World σ) :
    ∃ c, (read_retry_body T slaveAddress size options st v).2.calls = c :: v.calls ∧
      (c.dir = Dir.read ∧ c.slaveAddress = slaveAddress ∧ c.sizeToTransfer = size ∧
        c.options = options) ∧
      c.status = (read_retry_body T slaveAddress size options st v).1 ∧
      c.bufOut = (read_retry_body T slaveAddress size options st v).2.buffer ∧
      c.bufOut = storeRead c.bufIn c.received size :=
  ⟨_, read_retry_body_calls T slaveAddress size options st v, ⟨rfl, rfl, rfl, rfl⟩,
    by rw [read_retry_body_status], by rw [read_retry_body_buffer], rfl⟩

theorem device_read_head {σ : Type} (T : Transport σ) (slaveAddress size options : Nat)
    (v : World σ) :
    ∃ c, (I2C_DeviceRead T v slaveAddress size options).2.calls = c :: v.calls ∧
      (c.dir = Dir.read ∧ c.slaveAddress = slaveAddress ∧ c.sizeToTransfer = size ∧
        c.options = options) ∧
      c.status = (I2C_DeviceRead T v slaveAddress size options).1 ∧
      c.bufOut = (I2C_DeviceRead T v slaveAddress size options).2.buffer ∧
      c.bufOut = storeRead c.bufIn c.received size :=
  ⟨_, rfl, ⟨rfl, rfl, rfl, rfl⟩, rfl, rfl, rfl⟩

/-- State in which the retry loop of the data phase ends. -/
theorem read_data_loop_spec {σ : Type} (T : Transport σ) (w : World σ)
    (slaveAddress numBytes : Nat) :
    ReadHead slaveAddress numBytes (read_data_loop T w FT_OK slaveAddress numBytes).1
      (read_data_loop T w FT_OK slaveAddress numBytes).2 ∧
    ∃ new, (read_data_loop T w FT_OK slaveAddress numBytes).2.calls = new ++ w.calls ∧
      new ≠ [] ∧ ∀ c ∈ new, c.isReadOf slaveAddress numBytes read_options := by
  unfold read_data_loop
  rw [ft_ok_lor]
  refine retry_while_inv (read_retry_body T slaveAddress numBytes read_options)
    (fun st v => ReadHead slaveAddress numBytes st v ∧
      ∃ new, v.calls = new ++ w.calls ∧ new ≠ [] ∧
        ∀ c ∈ new, c.isReadOf slaveAddress numBytes read_options) ?_ 10 _ _ ?_
  · rintro st v _ ⟨-, new, hnew, -, hall⟩
    obtain ⟨c, hc, hr, hs, hb, hst⟩ := read_retry_body_head T slaveAddress numBytes
      read_options st v
    refine ⟨⟨c, _, hc, hr, hs, hb, hst⟩, c :: new, ?_, by simp, ?_⟩
    · rw [hc, hnew]; rfl
    · intro d hd
      rcases List.mem_cons.mp hd with rfl | hd
      · exact hr
      · exact hall d hd
  · obtain ⟨c, hc, hr, hs, hb, hst⟩ := device_read_head T slaveAddress numBytes read_options w
    refine ⟨⟨c, _, hc, hr, hs, hb, hst⟩, [c], hc, by simp, ?_⟩
    intro d hd
    rw [List.mem_singleton] at hd
    subst hd
    exact hr

/-- The data phase keeps the length of the transfer buffer when `numBytes` fits in it. -/
theorem read_data_loop_length {σ : Type} (T : Transport σ) (w : World σ) (status : Nat)
    (slaveAddress numBytes : Nat) (hn : numBytes ≤ w.buffer.length) :
    (read_data_loop T w status slaveAddress numBytes).2.buffer.length = w.buffer.length := by
  unfold read_data_loop
  refine retry_while_inv (read_retry_body T slaveAddress numBytes read_options)
    (fun _ v => v.buffer.length = w.buffer.length) ?_ 10 _ _ ?_
  · intro st v _ hlen
    rw [read_retry_body_buffer, storeRead_length _ _ _ (by omega), hlen]
  · show (storeRead _ _ _).length = _
    exact storeRead_length _ _ _ hn

theorem read_entry_buffer_length {σ : Type} (T : Transport σ) (w : World σ)
    (slaveAddress registerAddress bRegisterAddress : Nat) :
    (read_entry T w slaveAddress registerAddress bRegisterAddress).buffer.length
      = w.buffer.length := by
  unfold read_entry
  split
  · rw [(read_select_trace T w slaveAddress registerAddress).1]; simp
  · rfl

/-- `read_bytes` when the register-select phase is skipped or succeeds. -/
theorem read_bytes_data_phase {σ : Type} (T : Transport σ) (w : World σ)
    (slaveAddress registerAddress bRegisterAddress : Nat) (data : List Nat) (numBytes : Nat)
    (h : bRegisterAddress ≠ 0 → (read_select T w slaveAddress registerAddress).1 = FT_OK) :
    read_bytes T w slaveAddress registerAddress bRegisterAddress data numBytes
      = read_data T (read_entry T w slaveAddress registerAddress bRegisterAddress) FT_OK
          slaveAddress data numBytes := by
  unfold read_bytes read_entry
  by_cases hb : bRegisterAddress ≠ 0
  · rw [if_pos hb, if_pos hb]
    simp only []
    rw [h hb]
    simp
  · rw [if_neg hb, if_neg hb]

/-- `read_bytes` when the register-select phase fails. -/
theorem read_bytes_select_failed {σ : Type} (T : Transport σ) (w : World σ)
    (slaveAddress registerAddress bRegisterAddress : Nat) (data : List Nat) (numBytes : Nat)
    (hb : bRegisterAddress ≠ 0)
    (h : (read_select T w slaveAddress registerAddress).1 ≠ FT_OK) :
    read_bytes T w slaveAddress registerAddress bRegisterAddress data numBytes
      = ((read_select T w slaveAddress registerAddress).1,
         (read_select T w slaveAddress registerAddress).2, data) := by
  simp [read_bytes, hb, h]

/-- What `read_bytes` returns once its data phase is entered. -/
theorem read_bytes_data_phase_spec {σ : Type} (T : Transport σ) (w : World σ)
    (slaveAddress registerAddress bRegisterAddress : Nat) (data : List Nat) (numBytes : Nat)
    (h : bRegisterAddress ≠ 0 → (read_select T w slaveAddress registerAddress).1 = FT_OK) :
    ReadHead slaveAddress numBytes
      (read_bytes T w slaveAddress registerAddress bRegisterAddress data numBytes).1
      (read_bytes T w slaveAddress registerAddress bRegisterAddress data numBytes).2.1 ∧
    (numBytes ≤ w.buffer.length →
      (read_bytes T w slaveAddress registerAddress bRegisterAddress data
        numBytes).2.1.buffer.length = w.buffer.length) ∧
    (read_bytes T w slaveAddress registerAddress bRegisterAddress data numBytes).2.2
      = (if (read_bytes T w slaveAddress registerAddress bRegisterAddress data numBytes).1
            = FT_OK then
          memcpy data 0 (read_bytes T w slaveAddress registerAddress bRegisterAddress data
            numBytes).2.1.buffer numBytes
        else data) ∧
    ∃ new, (read_bytes T w slaveAddress registerAddress bRegisterAddress data numBytes).2.1.calls
        = new ++ (read_entry T w slaveAddress registerAddress bRegisterAddress).calls ∧
      new ≠ [] ∧ ∀ c ∈ new, c.isReadOf slaveAddress numBytes read_options := by
  rw [read_bytes_data_phase T w slaveAddress registerAddress bRegisterAddress data numBytes h,
    read_data_status, read_data_world, read_data_data]
  have hl := read_entry_buffer_length T w slaveAddress registerAddress bRegisterAddress
  obtain ⟨h1, h2⟩ := read_data_loop_spec T
    (read_entry T w slaveAddress registerAddress bRegisterAddress) slaveAddress numBytes
  refine ⟨h1, fun hn => ?_, rfl, h2⟩
  rw [read_data_loop_length T _ FT_OK slaveAddress numBytes (by omega), hl]

/-! ## Status of the most recent call -/

theorem retry_while_status_head {σ : Type} (body : Nat → World σ → Nat × World σ)
    (hb : ∀ st v, ∃ c, (body st v).2.calls = c :: v.calls ∧ c.status = (body st v).1)
    (left st : Nat) (w : World σ) (h : StatusHead st w) :
    StatusHead (retry_while body left st w).1 (retry_while body left st w).2 := by
  refine retry_while_inv body (fun st v => StatusHead st v) ?_ left st w h
  intro s v _ _
  obtain ⟨c, hc, hs⟩ := hb s v
  exact ⟨c, v.calls, hc, hs⟩

theorem write_bytes_status_head {σ : Type} (T : Transport σ) (w : World σ)
    (slaveAddress registerAddress : Nat) (data : List Nat) (numBytes : Nat) :
    StatusHead (write_bytes T w slaveAddress registerAddress data numBytes).1
      (write_bytes T w slaveAddress registerAddress data numBytes).2 := by
  unfold write_bytes
  refine retry_while_status_head _ ?_ 10 _ _ ⟨_, _, rfl, rfl⟩
  intro st v
  exact ⟨_, write_retry_body_calls T _ _ _ st v, by rw [write_retry_body_status]⟩

theorem read_select_status_head {σ : Type} (T : Transport σ) (w : World σ)
    (slaveAddress registerAddress : Nat) :
    StatusHead (read_select T w slaveAddress registerAddress).1
      (read_select T w slaveAddress registerAddress).2 := by
  unfold read_select
  refine retry_while_status_head _ ?_ 10 _ _ ⟨_, _, rfl, rfl⟩
  intro st v
  exact ⟨_, select_retry_body_calls T _ _ _ st v, by rw [select_retry_body_status]⟩

theorem issued_head_status (calls new old : List Call) (st : Nat)
    (hc : calls = new ++ old) (hne : new ≠ [])
    (hs : ∃ c rest, calls = c :: rest ∧ c.status = st) :
    (issued calls old.length).head?.map Call.status = some st := by
  obtain ⟨c, rest, hcr, hst⟩ := hs
  subst hc
  rw [issued_append]
  cases new with
  | nil => exact absurd rfl hne
  | cons d ds =>
    simp only [List.cons_append, List.cons.injEq] at hcr
    simp [hcr.1, hst]

/-- A retry loop adds at most `left` calls, and exactly `left` when it ends in failure. -/
theorem retry_while_budget {σ : Type} (body : Nat → World σ → Nat × World σ)
    (hc : ∀ st v, (body st v).2.calls.length = v.calls.length + 1) :
    ∀ (left st : Nat) (w : World σ),
      (retry_while body left st w).2.calls.length ≤ w.calls.length + left ∧
      ((retry_while body left st w).1 ≠ FT_OK →
        (retry_while body left st w).2.calls.length = w.calls.length + left) := by
  intro left
  induction left with
  | zero => intro st w; simp [retry_while]
  | succ n ih =>
    intro st w
    by_cases hst : st = FT_OK
    · subst hst
      rw [retry_while_ok]
      exact ⟨by simp, fun h => absurd rfl h⟩
    · rw [retry_while_fail body n st w hst]
      obtain ⟨h1, h2⟩ := ih (body st w).1 (body st w).2
      rw [hc] at h1 h2
      exact ⟨by omega, fun h => by rw [h2 h]; omega⟩

theorem write_bytes_budget {σ : Type} (T : Transport σ) (w : World σ)
    (slaveAddress registerAddress : Nat) (data : List Nat) (numBytes : Nat) :
    (write_bytes T w slaveAddress registerAddress data numBytes).2.calls.length
      ≤ w.calls.length + 11 ∧
    ((write_bytes T w slaveAddress registerAddress data numBytes).1 ≠ FT_OK →
      (write_bytes T w slaveAddress registerAddress data numBytes).2.calls.length
        = w.calls.length + 11) := by
  unfold write_bytes
  have h := retry_while_budget
    (write_retry_body T slaveAddress ((1 + numBytes) % UINT32_MOD) write_options)
    (by intro st v; rw [write_retry_body_calls]; rfl) 10
    (I2C_DeviceWrite T { w with buffer := frame w.buffer registerAddress data numBytes }
      slaveAddress ((1 + numBytes) % UINT32_MOD) write_options).1
    { (I2C_DeviceWrite T { w with buffer := frame w.buffer registerAddress data numBytes }
      slaveAddress ((1 + numBytes) % UINT32_MOD) write_options).2 with timeWrite := stop_time }
  exact h

theorem read_select_budget {σ : Type} (T : Transport σ) (w : World σ)
    (slaveAddress registerAddress : Nat) :
    (read_select T w slaveAddress registerAddress).2.calls.length ≤ w.calls.length + 11 ∧
    ((read_select T w slaveAddress registerAddress).1 ≠ FT_OK →
      (read_select T w slaveAddress registerAddress).2.calls.length = w.calls.length + 11) := by
  unfold read_select
  have h := retry_while_budget (select_retry_body T slaveAddress 1 write_options)
    (by intro st v; rw [select_retry_body_calls]; rfl) 10
    (I2C_DeviceWrite T { w with buffer := w.buffer.set 0 registerAddress } slaveAddress 1
      write_options).1
    (I2C_DeviceWrite T { w with buffer := w.buffer.set 0 registerAddress } slaveAddress 1
      write_options).2
  exact h

theorem read_data_loop_budget {σ : Type} (T : Transport σ) (w : World σ) (status : Nat)
    (slaveAddress numBytes : Nat) :
    (read_data_loop T w status slaveAddress numBytes).2.calls.length ≤ w.calls.length + 11 ∧
    ((read_data_loop T w status slaveAddress numBytes).1 ≠ FT_OK →
      (read_data_loop T w status slaveAddress numBytes).2.calls.length
        = w.calls.length + 11) := by
  unfold read_data_loop
  have h := retry_while_budget (read_retry_body T slaveAddress numBytes read_options)
    (by intro st v; rw [read_retry_body_calls]; rfl) 10
    (status ||| (I2C_DeviceRead T w slaveAddress numBytes read_options).1)
    { (I2C_DeviceRead T w slaveAddress numBytes read_options).2 with timeRead := stop_time }
  exact h

/-- Trace of `read_bytes`: register-select writes (none when `bRegisterAddress = 0`)
followed by data-phase reads, the most recent call carrying the returned status; each
phase has at most 11 calls, and a failing status means that the phase that ended the
operation made exactly 11. -/
theorem read_bytes_trace {σ : Type} (T : Transport σ) (w : World σ)
    (slaveAddress registerAddress bRegisterAddress : Nat) (data : List Nat) (numBytes : Nat) :
    ∃ sel dat,
      (read_bytes T w slaveAddress registerAddress bRegisterAddress data numBytes).2.1.calls
        = (dat ++ sel) ++ w.calls ∧
      (∀ c ∈ sel, c.isWriteOf slaveAddress 1 (w.buffer.set 0 registerAddress) write_options) ∧
      (∀ c ∈ dat, c.isReadOf slaveAddress numBytes read_options) ∧
      (bRegisterAddress = 0 → sel = []) ∧ dat ++ sel ≠ [] ∧
      StatusHead (read_bytes T w slaveAddress registerAddress bRegisterAddress data numBytes).1
        (read_bytes T w slaveAddress registerAddress bRegisterAddress data numBytes).2.1 ∧
      sel.length ≤ 11 ∧ dat.length ≤ 11 ∧
      ((read_bytes T w slaveAddress registerAddress bRegisterAddress data numBytes).1 ≠ FT_OK →
        (dat = [] ∧ sel.length = 11) ∨ dat.length = 11) := by
  have hsb := read_select_budget T w slaveAddress registerAddress
  by_cases hsel : bRegisterAddress ≠ 0 ∧ (read_select T w slaveAddress registerAddress).1 ≠ FT_OK
  · rw [read_bytes_select_failed T w slaveAddress registerAddress bRegisterAddress data numBytes
      hsel.1 hsel.2]
    obtain ⟨-, new, hnew, hne, hall⟩ := read_select_trace T w slaveAddress registerAddress
    have hlen : new.length = 11 := by
      have := hsb.2 hsel.2
      rw [hnew, List.length_append] at this
      omega
    exact ⟨new, [], by simpa using hnew, hall, by simp, fun h => absurd h hsel.1,
      by simpa using hne, read_select_status_head T w slaveAddress registerAddress,
      by omega, by simp, fun _ => Or.inl ⟨rfl, hlen⟩⟩
  · have h : bRegisterAddress ≠ 0 → (read_select T w slaveAddress registerAddress).1 = FT_OK :=
      fun hb => by_contra fun hne => hsel ⟨hb, hne⟩
    obtain ⟨⟨c, rest, hc, -, hs, -, -⟩, -, -, dat, hdat, hne, hall⟩ :=
      read_bytes_data_phase_spec T w slaveAddress registerAddress bRegisterAddress data
        numBytes h
    have hst := read_data_status T (read_entry T w slaveAddress registerAddress
      bRegisterAddress) FT_OK slaveAddress data numBytes
    have hwd := read_data_world T (read_entry T w slaveAddress registerAddress
      bRegisterAddress) FT_OK slaveAddress data numBytes
    have hbud := read_data_loop_budget T (read_entry T w slaveAddress registerAddress
      bRegisterAddress) FT_OK slaveAddress numBytes
    rw [← hst, ← hwd, ← read_bytes_data_phase T w slaveAddress registerAddress
      bRegisterAddress data numBytes h, hdat, List.length_append] at hbud
    have hd1 : dat.length ≤ 11 := by omega
    by_cases hb : bRegisterAddress ≠ 0
    · obtain ⟨-, sel, hsl, -, hsall⟩ := read_select_trace T w slaveAddress registerAddress
      have hs1 : sel.length ≤ 11 := by
        have := hsb.1
        rw [hsl, List.length_append] at this
        omega
      refine ⟨sel, dat, ?_, hsall, hall, fun h0 => absurd h0 hb, by simp [hne],
        ⟨c, rest, hc, hs⟩, hs1, hd1, fun hf => Or.inr (by have := hbud.2 hf; omega)⟩
      rw [hdat]
      simp [read_entry, hb, hsl]
    · refine ⟨[], dat, ?_, by simp, hall, fun _ => rfl, by simp [hne], ⟨c, rest, hc, hs⟩,
        by simp, hd1, fun hf => Or.inr (by have := hbud.2 hf; omega)⟩
      rw [hdat]
      simp [read_entry, hb]

/-! ## C4: status propagation -/

/-- C4: the status returned by `write_bytes` and by `read_bytes` is exactly the status
returned by the most recent transport call the operation issued (no translation), so the
operation reports success if and only if that call succeeded. -/
theorem status_is_last_call_status {σ : Type} (T : Transport σ) (w : World σ)
    (slaveAddress registerAddress bRegisterAddress : Nat) (data : List Nat) (numBytes : Nat) :
    ((issued (write_bytes T w slaveAddress registerAddress data numBytes).2.calls
        w.calls.length).head?.map Call.status
      = some (write_bytes T w slaveAddress registerAddress data numBytes).1) ∧
    ((issued (read_bytes T w slaveAddress registerAddress bRegisterAddress data
        numBytes).2.1.calls w.calls.length).head?.map Call.status
      = some (read_bytes T w slaveAddress registerAddress bRegisterAddress data numBytes).1) ∧
    ((write_bytes T w slaveAddress registerAddress data numBytes).1 = FT_OK ↔
      (issued (write_bytes T w slaveAddress registerAddress data numBytes).2.calls
        w.calls.length).head?.map Call.status = some FT_OK) ∧
    ((read_bytes T w slaveAddress registerAddress bRegisterAddress data numBytes).1 = FT_OK ↔
      (issued (read_bytes T w slaveAddress registerAddress bRegisterAddress data
        numBytes).2.1.calls w.calls.length).head?.map Call.status = some FT_OK) := by
  have hw : (issued (write_bytes T w slaveAddress registerAddress data numBytes).2.calls
        w.calls.length).head?.map Call.status
      = some (write_bytes T w slaveAddress registerAddress data numBytes).1 := by
    obtain ⟨-, new, hnew, hne, -⟩ := write_bytes_trace T w slaveAddress registerAddress data
      numBytes
    exact issued_head_status _ new w.calls _ hnew hne
      (write_bytes_status_head T w slaveAddress registerAddress data numBytes)
  have hr : (issued (read_bytes T w slaveAddress registerAddress bRegisterAddress data
        numBytes).2.1.calls w.calls.length).head?.map Call.status
      = some (read_bytes T w slaveAddress registerAddress bRegisterAddress data numBytes).1 := by
    obtain ⟨sel, dat, hcalls, -, -, -, hne, hs, -⟩ := read_bytes_trace T w slaveAddress
      registerAddress bRegisterAddress data numBytes
    exact issued_head_status _ (dat ++ sel) w.calls _ hcalls hne hs
  refine ⟨hw, hr, ?_, ?_⟩
  · rw [hw]; simp
  · rw [hr]; simp

/-! ## C5: configuration faults -/

theorem readCount_reads (l : List Call) (h : ∀ c ∈ l, c.dir = Dir.read) :
    readCount l = l.length := by
  unfold readCount
  rw [List.countP_eq_length]
  intro c hc
  simp [h c hc]

theorem readCount_writes (l : List Call) (h : ∀ c ∈ l, c.dir = Dir.write) :
    readCount l = 0 := by
  unfold readCount
  rw [List.countP_eq_zero]
  intro c hc
  simp [h c hc]

theorem writeCount_writes (l : List Call) (h : ∀ c ∈ l, c.dir = Dir.write) :
    writeCount l = l.length := by
  unfold writeCount
  rw [List.countP_eq_length]
  intro c hc
  simp [h c hc]

theorem config_fault_ne_ok (s : Nat) (h : isConfigFault s) : s ≠ FT_OK := by
  rcases h with h | h | h <;> subst h <;> decide

/-- C5, as stated, fails: a transport that answers every call with the configuration fault
`FT_INVALID_PARAMETER` is called 11 times by `write_bytes`, 11 times by the register-select
phase of `read_bytes` and 11 times by its data phase, not once. -/
theorem config_fault_not_retried_counterexample :
    isConfigFault FT_INVALID_PARAMETER ∧
    (write_bytes (alwaysStatus FT_INVALID_PARAMETER []) (World.init ())
      I2C_DEVICE_ADDRESS_EEPROM 0 [1, 2] 2).1 = FT_INVALID_PARAMETER ∧
    (write_bytes (alwaysStatus FT_INVALID_PARAMETER []) (World.init ())
      I2C_DEVICE_ADDRESS_EEPROM 0 [1, 2] 2).2.calls.length = 11 ∧
    ¬ ((write_bytes (alwaysStatus FT_INVALID_PARAMETER []) (World.init ())
      I2C_DEVICE_ADDRESS_EEPROM 0 [1, 2] 2).2.calls.length = 1) ∧
    writeCount (read_bytes (alwaysStatus FT_INVALID_PARAMETER []) (World.init ())
      I2C_DEVICE_ADDRESS_EEPROM 0 1 [0, 0] 2).2.1.calls = 11 ∧
    readCount (read_bytes (alwaysStatus FT_INVALID_PARAMETER []) (World.init ())
      I2C_DEVICE_ADDRESS_EEPROM 0 0 [0, 0] 2).2.1.calls = 11 := by
  decide

/-- C5 (amended): a configuration fault is retried like any other failing status.  If
`write_bytes` returns a configuration fault `s`, it has issued exactly 11 transport calls;
if `read_bytes` returns one, then either its register-select phase issued exactly 11 writes
and no read was issued, or its data phase issued exactly 11 reads.  The status surfaces only
once the 11 attempts of the phase are used up. -/
theorem config_fault_is_retried {σ : Type} (T : Transport σ) (w : World σ)
    (slaveAddress registerAddress bRegisterAddress : Nat) (data : List Nat) (numBytes : Nat)
    (s : Nat) (hs : isConfigFault s) :
    ((write_bytes T w slaveAddress registerAddress data numBytes).1 = s →
      (issued (write_bytes T w slaveAddress registerAddress data numBytes).2.calls
        w.calls.length).length = 11) ∧
    ((read_bytes T w slaveAddress registerAddress bRegisterAddress data numBytes).1 = s →
      (writeCount (issued (read_bytes T w slaveAddress registerAddress bRegisterAddress data
          numBytes).2.1.calls w.calls.length) = 11 ∧
        readCount (issued (read_bytes T w slaveAddress registerAddress bRegisterAddress data
          numBytes).2.1.calls w.calls.length) = 0) ∨
      readCount (issued (read_bytes T w slaveAddress registerAddress bRegisterAddress data
          numBytes).2.1.calls w.calls.length) = 11) := by
  have hne := config_fault_ne_ok s hs
  constructor
  · intro h
    obtain ⟨-, new, hnew, -, -⟩ := write_bytes_trace T w slaveAddress registerAddress data
      numBytes
    have hb := (write_bytes_budget T w slaveAddress registerAddress data numBytes).2
      (by rw [h]; exact hne)
    rw [hnew, issued_append]
    rw [hnew, List.length_append] at hb
    omega
  · intro h
    obtain ⟨sel, dat, hcalls, hsel, hdat, -, -, -, -, -, hfail⟩ := read_bytes_trace T w
      slaveAddress registerAddress bRegisterAddress data numBytes
    rw [hcalls, issued_append]
    have hselw : ∀ c ∈ sel, c.dir = Dir.write := fun c hc => (hsel c hc).1
    have hdatr : ∀ c ∈ dat, c.dir = Dir.read := fun c hc => (hdat c hc).1
    rcases hfail (by rw [h]; exact hne) with ⟨hd, hl⟩ | hl
    · left
      subst hd
      simp only [List.nil_append]
      exact ⟨by rw [writeCount_writes sel hselw, hl], readCount_writes sel hselw⟩
    · right
      rw [readCount_append_writes' dat sel hselw, readCount_reads dat hdatr, hl]

/-- Witness for `config_fault_is_retried`: a transport that always answers
`FT_INVALID_PARAMETER`. -/
theorem config_fault_is_retried_witness :
    isConfigFault FT_INVALID_PARAMETER ∧
    (write_bytes (alwaysStatus FT_INVALID_PARAMETER []) (World.init ())
      I2C_DEVICE_ADDRESS_EEPROM 0 [1, 2] 2).1 = FT_INVALID_PARAMETER ∧
    (issued (write_bytes (alwaysStatus FT_INVALID_PARAMETER []) (World.init ())
      I2C_DEVICE_ADDRESS_EEPROM 0 [1, 2] 2).2.calls (World.init ()).calls.length).length = 11 :=
  ⟨by decide, by decide,
    (config_fault_is_retried (alwaysStatus FT_INVALID_PARAMETER []) (World.init ())
      I2C_DEVICE_ADDRESS_EEPROM 0 0 [1, 2] 2 FT_INVALID_PARAMETER (by decide)).1 (by decide)⟩

/-! ## C6: framing of `write_bytes` -/

theorem frame_take (buffer : List Nat) (registerAddress : Nat) (data : List Nat)
    (numBytes : Nat) (hlen : data.length = numBytes) (hbuf : 0 < buffer.length) :
    (frame buffer registerAddress data numBytes).take (numBytes + 1)
      = registerAddress :: data := by
  cases buffer with
  | nil => simp at hbuf
  | cons b bs =>
    subst hlen
    simp [frame, memcpy, List.take_append_eq_append_take]

/-- C6: for `data` of `numBytes` bytes with `numBytes + 1` within the transfer buffer, every
transport call issued by `write_bytes` (there is at least one) is the same transaction: a
write to `slaveAddress` of length `numBytes + 1` whose buffer starts with
`registerAddress, data[0], ..., data[numBytes-1]`, with options exactly
`START_BIT | STOP_BIT` (the fast-transfer bit is not set). -/
theorem write_bytes_framing {σ : Type} (T : Transport σ) (w : World σ)
    (slaveAddress registerAddress : Nat) (data : List Nat) (numBytes : Nat)
    (hlen : data.length = numBytes)
    (hcap : numBytes + 1 ≤ I2C_DEVICE_BUFFER_SIZE)
    (hbuf : w.buffer.length = I2C_DEVICE_BUFFER_SIZE) :
    issued (write_bytes T w slaveAddress registerAddress data numBytes).2.calls w.calls.length
      ≠ [] ∧
    ∀ c ∈ issued (write_bytes T w slaveAddress registerAddress data numBytes).2.calls
        w.calls.length,
      c.dir = Dir.write ∧ c.slaveAddress = slaveAddress ∧
      c.sizeToTransfer = numBytes + 1 ∧
      c.bufIn = frame w.buffer registerAddress data numBytes ∧
      c.bufIn.take (numBytes + 1) = registerAddress :: data ∧
      c.options = I2C_TRANSFER_OPTIONS_START_BIT ||| I2C_TRANSFER_OPTIONS_STOP_BIT ∧
      c.options &&& I2C_TRANSFER_OPTIONS_FAST_TRANSFER_BYTES = 0 := by
  obtain ⟨-, new, hnew, hne, hall⟩ := write_bytes_trace T w slaveAddress registerAddress data
    numBytes
  rw [hnew, issued_append]
  refine ⟨hne, fun c hc => ?_⟩
  obtain ⟨h1, h2, h3, h4, h5, -⟩ := hall c hc
  have hsize : (1 + numBytes) % UINT32_MOD = numBytes + 1 := by
    have : numBytes + 1 ≤ 256 := hcap
    unfold UINT32_MOD
    omega
  refine ⟨h1, h2, by rw [h3, hsize], h4, ?_, by rw [h5]; decide, by rw [h5]; decide⟩
  rw [h4]
  exact frame_take w.buffer registerAddress data numBytes hlen
    (by rw [hbuf]; decide)

/-- Witness for `write_bytes_framing`: two payload bytes, a transport failing three times. -/
theorem write_bytes_framing_witness :
    issued (write_bytes (failFirst 3) (World.init 0) I2C_DEVICE_ADDRESS_EEPROM 5 [1, 2]
      2).2.calls (World.init 0).calls.length ≠ [] ∧
    ∀ c ∈ issued (write_bytes (failFirst 3) (World.init 0) I2C_DEVICE_ADDRESS_EEPROM 5 [1, 2]
        2).2.calls (World.init 0).calls.length,
      c.dir = Dir.write ∧ c.slaveAddress = I2C_DEVICE_ADDRESS_EEPROM ∧
      c.sizeToTransfer = 2 + 1 ∧
      c.bufIn = frame (World.init 0).buffer 5 [1, 2] 2 ∧
      c.bufIn.take (2 + 1) = 5 :: [1, 2] ∧
      c.options = I2C_TRANSFER_OPTIONS_START_BIT ||| I2C_TRANSFER_OPTIONS_STOP_BIT ∧
      c.options &&& I2C_TRANSFER_OPTIONS_FAST_TRANSFER_BYTES = 0 :=
  write_bytes_framing (failFirst 3) (World.init 0) I2C_DEVICE_ADDRESS_EEPROM 5 [1, 2] 2
    rfl (by decide) (List.length_replicate _ _)

/-! ## C7: framing of `read_bytes` -/

theorem writeCount_reads (l : List Call) (h : ∀ c ∈ l, c.dir = Dir.read) :
    writeCount l = 0 := by
  unfold writeCount
  rw [List.countP_eq_zero]
  intro c hc
  simp [h c hc]

/-- C7: every transport call issued by `read_bytes` requests the start and the stop
condition; a write (register select) happens only when `bRegisterAddress` is set, is one
byte long, that byte being `registerAddress`, and does not set NACK-on-last-byte; a read
(data phase) asks for exactly `numBytes` bytes with NACK-on-last-byte set; and with
`bRegisterAddress = 0` no transport write is issued at all. -/
theorem read_bytes_framing {σ : Type} (T : Transport σ) (w : World σ)
    (slaveAddress registerAddress bRegisterAddress : Nat) (data : List Nat) (numBytes : Nat)
    (hbuf : w.buffer.length = I2C_DEVICE_BUFFER_SIZE) :
    (∀ c ∈ issued (read_bytes T w slaveAddress registerAddress bRegisterAddress data
        numBytes).2.1.calls w.calls.length,
      c.slaveAddress = slaveAddress ∧
      c.options &&& I2C_TRANSFER_OPTIONS_START_BIT = I2C_TRANSFER_OPTIONS_START_BIT ∧
      c.options &&& I2C_TRANSFER_OPTIONS_STOP_BIT = I2C_TRANSFER_OPTIONS_STOP_BIT ∧
      (c.dir = Dir.write →
        bRegisterAddress ≠ 0 ∧ c.sizeToTransfer = 1 ∧ c.bufIn.take 1 = [registerAddress] ∧
        c.options &&& I2C_TRANSFER_OPTIONS_NACK_LAST_BYTE = 0) ∧
      (c.dir = Dir.read →
        c.sizeToTransfer = numBytes ∧
        c.options &&& I2C_TRANSFER_OPTIONS_NACK_LAST_BYTE
          = I2C_TRANSFER_OPTIONS_NACK_LAST_BYTE)) ∧
    (bRegisterAddress = 0 →
      writeCount (issued (read_bytes T w slaveAddress registerAddress bRegisterAddress data
        numBytes).2.1.calls w.calls.length) = 0) := by
  obtain ⟨sel, dat, hcalls, hsel, hdat, hzero, -⟩ := read_bytes_trace T w slaveAddress
    registerAddress bRegisterAddress data numBytes
  rw [hcalls, issued_append]
  constructor
  · intro c hc
    rcases List.mem_append.mp hc with hc | hc
    · obtain ⟨h1, h2, h3, h4⟩ := hdat c hc
      refine ⟨h2, by rw [h4]; decide, by rw [h4]; decide, fun hw => ?_,
        fun _ => ⟨h3, by rw [h4]; decide⟩⟩
      rw [h1] at hw
      exact absurd hw (by decide)
    · obtain ⟨h1, h2, h3, h4, h5, -⟩ := hsel c hc
      refine ⟨h2, by rw [h5]; decide, by rw [h5]; decide, fun _ => ⟨?_, h3, ?_, ?_⟩,
        fun hr => ?_⟩
      · intro h0
        rw [hzero h0] at hc
        simp at hc
      · rw [h4]
        have hpos : 0 < w.buffer.length := by rw [hbuf]; decide
        cases hb : w.buffer with
        | nil => rw [hb] at hpos; simp at hpos
        | cons b bs => simp
      · rw [h5]; decide
      · rw [h1] at hr
        exact absurd hr (by decide)
  · intro h0
    rw [hzero h0, List.append_nil]
    exact writeCount_reads dat (fun c hc => (hdat c hc).1)

/-- Witness for `read_bytes_framing`: an addressed read through a transport that fails
three times. -/
theorem read_bytes_framing_witness :
    (∀ c ∈ issued (read_bytes (failFirst 3) (World.init 0) I2C_DEVICE_ADDRESS_EEPROM 5 1 [0, 0]
        2).2.1.calls (World.init 0).calls.length,
      c.slaveAddress = I2C_DEVICE_ADDRESS_EEPROM ∧
      c.options &&& I2C_TRANSFER_OPTIONS_START_BIT = I2C_TRANSFER_OPTIONS_START_BIT ∧
      c.options &&& I2C_TRANSFER_OPTIONS_STOP_BIT = I2C_TRANSFER_OPTIONS_STOP_BIT ∧
      (c.dir = Dir.write →
        (1 : Nat) ≠ 0 ∧ c.sizeToTransfer = 1 ∧ c.bufIn.take 1 = [5] ∧
        c.options &&& I2C_TRANSFER_OPTIONS_NACK_LAST_BYTE = 0) ∧
      (c.dir = Dir.read →
        c.sizeToTransfer = 2 ∧
        c.options &&& I2C_TRANSFER_OPTIONS_NACK_LAST_BYTE
          = I2C_TRANSFER_OPTIONS_NACK_LAST_BYTE)) ∧
    writeCount (issued (read_bytes (failFirst 3) (World.init 0) I2C_DEVICE_ADDRESS_EEPROM 5 1
      [0, 0] 2).2.1.calls (World.init 0).calls.length) = 4 :=
  ⟨(read_bytes_framing (failFirst 3) (World.init 0) I2C_DEVICE_ADDRESS_EEPROM 5 1 [0, 0] 2
      (List.length_replicate _ _)).1, by decide⟩

/-! ## Payload generation -/

theorem foldl_set_range' (f : Nat → Nat) :
    ∀ (mid pre post : List Nat),
      (List.range' pre.length mid.length).foldl (fun d a => d.set a (f a)) (pre ++ mid ++ post)
        = pre ++ (List.range' pre.length mid.length).map f ++ post := by
  intro mid
  induction mid with
  | nil => intro pre post; simp
  | cons m ms ih =>
    intro pre post
    have hset : (pre ++ m :: ms ++ post).set pre.length (f pre.length)
        = (pre ++ [f pre.length]) ++ ms ++ post := by
      simp [List.set_append_right]
    have := ih (pre ++ [f pre.length]) post
    simp only [List.length_append, List.length_singleton] at this
    simp only [List.length_cons, List.range'_succ, List.foldl_cons, List.map_cons, hset, this]
    simp

theorem prepare_data_eq (count : Nat) (dataOUT : List Nat)
    (h : dataOUT.length = EEPROM_DATA_LEN) : prepare_data count dataOUT = payloadOf count := by
  have key := foldl_set_range' (fun a => (a + count % UINT8_MOD) % UINT8_MOD) dataOUT [] []
  simp only [List.length_nil, List.nil_append, List.append_nil] at key
  have h16 : dataOUT.length = END_ADDRESS_EEPROM - START_ADDRESS_EEPROM := h
  unfold prepare_data payloadOf
  rw [← h16, show START_ADDRESS_EEPROM = 0 from rfl, key, List.range_eq_range', h16]
  apply List.map_congr_left
  intro a _
  show (a + count % UINT8_MOD) % UINT8_MOD = (a + count) % UINT8_MOD
  exact Nat.add_mod_mod a count UINT8_MOD

theorem payloadOf_length (count : Nat) : (payloadOf count).length = EEPROM_DATA_LEN := by
  simp [payloadOf]

theorem payloadOf_head (count : Nat) : (payloadOf count).head? = some (count % UINT8_MOD) := by
  simp [payloadOf, List.range_succ_eq_map, EEPROM_DATA_LEN, END_ADDRESS_EEPROM,
    START_ADDRESS_EEPROM]

theorem payloadOf_succ_ne (count : Nat) : payloadOf (count + 1) ≠ payloadOf count := by
  intro h
  have h2 := congrArg List.head? h
  rw [payloadOf_head, payloadOf_head] at h2
  simp only [Option.some.injEq, UINT8_MOD] at h2
  omega

/-! ## One iteration of the harness -/

theorem memcmp_eq_zero (a b : List Nat) (n : Nat) :
    memcmp a b n = 0 ↔ a.take n = b.take n := by
  unfold memcmp
  split
  · simp [*]
  · split <;> simp [*]

/-- Effect of the loop body on the locals and on the log. -/
theorem eeprom_iteration_spec {σ : Type} (T : Transport σ) (h : Harness σ) :
    ∃ e, (eeprom_iteration T h).log = e :: h.log ∧ e.count = h.count ∧
      e.payload = prepare_data h.count h.dataOUT ∧
      (eeprom_iteration T h).glitch
        = (if e.matched then h.glitch else (h.glitch + 1) % UINT32_MOD) ∧
      (eeprom_iteration T h).dataOUT = e.payload ∧
      (eeprom_iteration T h).count = h.count ∧
      (eeprom_iteration T h).returned = h.returned := by
  by_cases hw : (eeprom_write T h).1 ≠ FT_OK
  · refine ⟨abandonedEntry T h, ?_, by with_reducible rfl, by with_reducible rfl, ?_, ?_, ?_, ?_⟩
      <;> unfold eeprom_iteration <;> simp only [if_pos hw]
    simp [Iteration.matched, hw]
  · by_cases hr : (eeprom_read T h).1 ≠ FT_OK
    · refine ⟨readEntry T h, ?_, by with_reducible rfl, by with_reducible rfl, ?_, ?_, ?_, ?_⟩
        <;> unfold eeprom_iteration <;> simp only [if_neg hw, if_pos hr]
      simp [Iteration.matched, hr]
    · have hw' : (eeprom_write T h).1 = FT_OK := not_not.mp hw
      have hr' : (eeprom_read T h).1 = FT_OK := not_not.mp hr
      by_cases hm : memcmp (eeprom_read T h).2.2 (prepare_data h.count h.dataOUT)
          EEPROM_DATA_LEN = 0
      · refine ⟨readEntry T h, ?_, by with_reducible rfl, by with_reducible rfl, ?_, ?_, ?_, ?_⟩
          <;> unfold eeprom_iteration <;> simp only [if_neg hw, if_neg hr, if_pos hm]
        rw [memcmp_eq_zero] at hm
        simp [Iteration.matched, hw', hr', hm]
      · refine ⟨readEntry T h, ?_, by with_reducible rfl, by with_reducible rfl, ?_, ?_, ?_, ?_⟩
          <;> unfold eeprom_iteration <;> simp only [if_neg hw, if_neg hr, if_neg hm]
        rw [memcmp_eq_zero] at hm
        simp [Iteration.matched, hm]

/-! ## The loop of the harness -/

theorem nonMatching_cons (e : Iteration) (log : List Iteration) :
    nonMatching (e :: log) = nonMatching log + (if e.matched then 0 else 1) := by
  unfold nonMatching
  cases hm : e.matched <;> simp [List.filter_cons, hm]

theorem nonMatching_le (log : List Iteration) : nonMatching log ≤ log.length := by
  unfold nonMatching
  exact List.length_filter_le _ _

theorem eeprom_run_succ {σ : Type} (T : Transport σ) (n : Nat) (h : Harness σ) :
    eeprom_run T (n + 1) h = eeprom_step T (eeprom_run T n h) := by
  induction n generalizing h with
  | zero => rfl
  | succ k ih =>
    show eeprom_run T (k + 1) (eeprom_step T h) = _
    rw [ih]
    rfl

theorem harnessInv_entry {σ : Type} (w : World σ) : HarnessInv (eeprom_entry w) := by
  refine ⟨by simp [eeprom_entry], by simp [eeprom_entry], by simp [eeprom_entry],
    by simp [eeprom_entry, nonMatching], ?_, by simp [eeprom_entry]⟩
  intro _
  exact ⟨by simp [eeprom_entry, UINT32_MOD], by simp [eeprom_entry], by simp [eeprom_entry]⟩

/-- One step keeps the invariant; it either leaves the log and the glitch counter alone
(the loop has been left, or is being left) or logs one iteration and counts it when it is
not a match. -/
theorem eeprom_step_spec {σ : Type} (T : Transport σ) (h : Harness σ) (hi : HarnessInv h) :
    HarnessInv (eeprom_step T h) ∧
    (((h.returned = true ∨ h.count + 1 = UINT32_MOD) ∧
        (eeprom_step T h).returned = true ∧
        (eeprom_step T h).log = h.log ∧ (eeprom_step T h).glitch = h.glitch) ∨
      ((h.returned = false ∧ h.count + 1 < UINT32_MOD) ∧
        (eeprom_step T h).returned = false ∧ (eeprom_step T h).count = h.count + 1 ∧
        ∃ e, (eeprom_step T h).log = e :: h.log ∧
          (eeprom_step T h).glitch = h.glitch + (if e.matched then 0 else 1))) := by
  obtain ⟨i1, i2, i3, i4, i5, i6⟩ := hi
  by_cases hret : h.returned = true
  · have hs : eeprom_step T h = h := by simp [eeprom_step, hret]
    rw [hs]
    exact ⟨⟨i1, i2, i3, i4, i5, i6⟩, Or.inl ⟨Or.inl hret, hret, rfl, rfl⟩⟩
  · have hret' : h.returned = false := by simpa using hret
    obtain ⟨hc, hlen, hhead⟩ := i5 hret'
    by_cases hwrap : (h.count + 1) % UINT32_MOD ≠ 0
    · have hlt : h.count + 1 < UINT32_MOD := by
        by_contra hge
        have : h.count + 1 = UINT32_MOD := by omega
        rw [this] at hwrap
        simp at hwrap
      have hmod : (h.count + 1) % UINT32_MOD = h.count + 1 := Nat.mod_eq_of_lt hlt
      have hs : eeprom_step T h = eeprom_iteration T { h with count := h.count + 1 } := by
        simp [eeprom_step, hret', hmod]
      obtain ⟨e, hlog, hcount, hpay, hgl, hdo, hcnt, hrt⟩ :=
        eeprom_iteration_spec T { h with count := h.count + 1 }
      rw [← hs] at hlog hgl hdo hcnt hrt
      have hlog : (eeprom_step T h).log = e :: h.log := hlog
      have hcnt : (eeprom_step T h).count = h.count + 1 := hcnt
      have hrt : (eeprom_step T h).returned = false :=
        (show (eeprom_step T h).returned = h.returned from hrt).trans hret'
      have hpay' : e.payload = payloadOf (h.count + 1) := by
        rw [hpay]; exact prepare_data_eq _ _ i1
      have hcount' : e.count = h.count + 1 := hcount
      have hgl' : (eeprom_step T h).glitch = h.glitch + (if e.matched then 0 else 1) := by
        rw [hgl]
        show (if e.matched = true then h.glitch else (h.glitch + 1) % UINT32_MOD) = _
        have hb := nonMatching_le h.log
        cases hm : e.matched
        · simp only [Bool.false_eq_true, if_false]
          exact Nat.mod_eq_of_lt (by omega)
        · simp
      refine ⟨⟨?_, ?_, ?_, ?_, ?_, ?_⟩, Or.inr ⟨⟨hret', hlt⟩, hrt, hcnt, e, hlog, hgl'⟩⟩
      · rw [hdo, hpay']; exact payloadOf_length _
      · rw [hlog]
        intro x hx
        rcases List.mem_cons.mp hx with rfl | hx
        · rw [hcount']; exact hpay'
        · exact i2 x hx
      · rw [hlog, List.chain'_cons']
        refine ⟨fun y hy => ?_, i3⟩
        have hy' : h.log.head? = some y := hy
        have hyc := hhead y hy'
        have hymem : y ∈ h.log := List.mem_of_mem_head? hy
        refine ⟨by rw [hcount', hyc], ?_⟩
        rw [hpay', i2 y hymem, hyc]
        exact payloadOf_succ_ne h.count
      · rw [hgl', hlog, nonMatching_cons, i4]
      · intro _
        refine ⟨by rw [hcnt]; exact hlt, by rw [hlog, hcnt]; simp [hlen], ?_⟩
        intro x hx
        rw [hlog] at hx
        simp only [List.head?_cons, Option.some.injEq] at hx
        rw [← hx, hcount', hcnt]
      · intro hr
        rw [hrt] at hr
        exact absurd hr (by simp)
    · have hz : (h.count + 1) % UINT32_MOD = 0 := not_not.mp hwrap
      have heq : h.count + 1 = UINT32_MOD := by
        by_contra hne
        have hlt : h.count + 1 < UINT32_MOD := by omega
        rw [Nat.mod_eq_of_lt hlt] at hz
        omega
      have hs : eeprom_step T h = { h with count := 0, returned := true } := by
        simp [eeprom_step, hret', hz]
      rw [hs]
      refine ⟨⟨i1, i2, i3, i4, ?_, ?_⟩, Or.inl ⟨Or.inr heq, rfl, rfl, rfl⟩⟩
      · intro hr
        exact absurd hr (by simp)
      · intro _
        show h.log.length = UINT32_MOD - 1
        omega

theorem harnessInv_run {σ : Type} (T : Transport σ) (w : World σ) (K : Nat) :
    HarnessInv (TestDeviceEEPROM T w K) := by
  unfold TestDeviceEEPROM
  induction K with
  | zero => exact harnessInv_entry w
  | succ k ih =>
    rw [eeprom_run_succ]
    exact (eeprom_step_spec T _ ih).1

/-- While the counter has not wrapped the loop is still running and `count` is the number
of steps taken; afterwards the function has returned. -/
theorem run_progress {σ : Type} (T : Transport σ) (w : World σ) (K : Nat) :
    (K < UINT32_MOD → (TestDeviceEEPROM T w K).returned = false ∧
      (TestDeviceEEPROM T w K).count = K) ∧
    (UINT32_MOD ≤ K → (TestDeviceEEPROM T w K).returned = true) := by
  induction K with
  | zero =>
    exact ⟨fun _ => ⟨rfl, rfl⟩, fun h => absurd h (by decide)⟩
  | succ k ih =>
    have hinv := harnessInv_run T w k
    have hstep : TestDeviceEEPROM T w (k + 1) = eeprom_step T (TestDeviceEEPROM T w k) := by
      unfold TestDeviceEEPROM
      exact eeprom_run_succ T k _
    rw [hstep]
    rcases (eeprom_step_spec T _ hinv).2 with ⟨hcase, hr, -, -⟩ | ⟨⟨hr0, hlt⟩, hr, hc, -⟩
    · constructor
      · intro hk
        obtain ⟨h1, h2⟩ := ih.1 (by omega)
        rcases hcase with hc | hc
        · rw [h1] at hc; exact absurd hc (by simp)
        · rw [h2] at hc; omega
      · intro _; exact hr
    · constructor
      · intro hk
        obtain ⟨-, h2⟩ := ih.1 (by omega)
        exact ⟨hr, by rw [hc, h2]⟩
      · intro hk
        by_cases hk' : UINT32_MOD ≤ k
        · rw [ih.2 hk'] at hr0; exact absurd hr0 (by simp)
        · obtain ⟨-, h2⟩ := ih.1 (by omega)
          rw [h2] at hlt
          omega

/-! ## The echoing transport -/

theorem echo_write (w : World (List Nat)) (slaveAddress registerAddress : Nat)
    (P : List Nat) (hP : P.length = EEPROM_DATA_LEN)
    (hbuf : w.buffer.length = I2C_DEVICE_BUFFER_SIZE) :
    (write_bytes echoTransport w slaveAddress registerAddress P EEPROM_DATA_LEN).1 = FT_OK ∧
    (write_bytes echoTransport w slaveAddress registerAddress P EEPROM_DATA_LEN).2.dev = P := by
  have hpos : 0 < w.buffer.length := by rw [hbuf]; decide
  have hframe := frame_take w.buffer registerAddress P EEPROM_DATA_LEN hP hpos
  have h17 : (1 + EEPROM_DATA_LEN) % UINT32_MOD = EEPROM_DATA_LEN + 1 := by decide
  have hfr : memcpy (w.buffer.set 0 registerAddress) 1 P EEPROM_DATA_LEN
      = frame w.buffer registerAddress P EEPROM_DATA_LEN := rfl
  unfold write_bytes
  simp only [I2C_DeviceWrite, echoTransport]
  rw [retry_while_ok]
  simp only [h17, hfr, hframe]
  exact ⟨trivial, by simp [EEPROM_DATA_LEN, END_ADDRESS_EEPROM, START_ADDRESS_EEPROM]⟩

theorem echo_read (v : World (List Nat)) (slaveAddress registerAddress : Nat)
    (P dataIN : List Nat) (hP : P.length = EEPROM_DATA_LEN) (hdev : v.dev = P) :
    (read_bytes echoTransport v slaveAddress registerAddress 1 dataIN EEPROM_DATA_LEN).1
      = FT_OK ∧
    (read_bytes echoTransport v slaveAddress registerAddress 1 dataIN EEPROM_DATA_LEN).2.2
      = P ++ dataIN.drop EEPROM_DATA_LEN := by
  have hsel : read_select echoTransport v slaveAddress registerAddress
      = (FT_OK, { v with
          buffer := v.buffer.set 0 registerAddress
          calls := ⟨Dir.write, slaveAddress, 1, v.buffer.set 0 registerAddress, write_options,
            FT_OK, v.buffer.set 0 registerAddress, []⟩ :: v.calls }) := by
    unfold read_select
    simp only [I2C_DeviceWrite, echoTransport]
    rw [retry_while_ok]
    simp
  have hloop : ∀ u : World (List Nat), u.dev = P →
      (read_data_loop echoTransport u FT_OK slaveAddress EEPROM_DATA_LEN).1 = FT_OK ∧
      (read_data_loop echoTransport u FT_OK slaveAddress EEPROM_DATA_LEN).2.buffer
        = P ++ u.buffer.drop EEPROM_DATA_LEN := by
    intro u hu
    unfold read_data_loop
    rw [ft_ok_lor]
    simp only [I2C_DeviceRead, echoTransport]
    rw [retry_while_ok]
    refine ⟨rfl, ?_⟩
    show storeRead u.buffer (u.dev.take EEPROM_DATA_LEN) EEPROM_DATA_LEN = _
    rw [hu]
    unfold storeRead
    rw [← hP]
    simp
  rw [read_bytes_data_phase echoTransport v slaveAddress registerAddress 1 dataIN
    EEPROM_DATA_LEN (fun _ => by rw [hsel])]
  rw [read_data_status, read_data_data]
  have hentry : (read_entry echoTransport v slaveAddress registerAddress 1).dev = P := by
    unfold read_entry
    rw [if_pos (by decide), hsel]
    exact hdev
  obtain ⟨h1, h2⟩ := hloop _ hentry
  refine ⟨h1, ?_⟩
  rw [if_pos h1, h2]
  unfold memcpy
  rw [← hP]
  simp

/-- The loop body when write and read succeed and the bytes agree. -/
theorem eeprom_iteration_match {σ : Type} (T : Transport σ) (h : Harness σ)
    (hw : (eeprom_write T h).1 = FT_OK) (hr : (eeprom_read T h).1 = FT_OK)
    (hm : memcmp (eeprom_read T h).2.2 (prepare_data h.count h.dataOUT) EEPROM_DATA_LEN = 0) :
    (eeprom_iteration T h).log = readEntry T h :: h.log ∧
    (eeprom_iteration T h).glitch = h.glitch := by
  have hw' : ¬ (eeprom_write T h).1 ≠ FT_OK := not_not.mpr hw
  have hr' : ¬ (eeprom_read T h).1 ≠ FT_OK := not_not.mpr hr
  constructor <;> unfold eeprom_iteration <;> simp only [if_neg hw', if_neg hr', if_pos hm]

/-! ## C9: round trip of one iteration -/

/-- C9: with the transport that always succeeds and echoes the payload bytes of the last
`write_bytes` frame, writing any 16-byte payload `P` with `write_bytes` and reading it back
with `read_bytes` (register address 0, `bRegisterAddress = 1`, 16 bytes) succeeds twice and
yields `dataIN = P`; and one iteration of the EEPROM loop ends in a byte-exact match
(`dataIN` equals the generated payload) and leaves the glitch counter as it was. -/
theorem echo_round_trip (h : Harness (List Nat)) (P : List Nat)
    (hP : P.length = EEPROM_DATA_LEN)
    (hout : h.dataOUT.length = EEPROM_DATA_LEN)
    (hbuf : h.world.buffer.length = I2C_DEVICE_BUFFER_SIZE) :
    ((write_bytes echoTransport h.world I2C_DEVICE_ADDRESS_EEPROM START_ADDRESS_EEPROM P
        EEPROM_DATA_LEN).1 = FT_OK ∧
      (read_bytes echoTransport
        (write_bytes echoTransport h.world I2C_DEVICE_ADDRESS_EEPROM START_ADDRESS_EEPROM P
          EEPROM_DATA_LEN).2
        I2C_DEVICE_ADDRESS_EEPROM START_ADDRESS_EEPROM 1 (List.replicate EEPROM_DATA_LEN 0)
        EEPROM_DATA_LEN).1 = FT_OK ∧
      (read_bytes echoTransport
        (write_bytes echoTransport h.world I2C_DEVICE_ADDRESS_EEPROM START_ADDRESS_EEPROM P
          EEPROM_DATA_LEN).2
        I2C_DEVICE_ADDRESS_EEPROM START_ADDRESS_EEPROM 1 (List.replicate EEPROM_DATA_LEN 0)
        EEPROM_DATA_LEN).2.2 = P) ∧
    (eeprom_iteration echoTransport h).glitch = h.glitch ∧
    ∃ e, (eeprom_iteration echoTransport h).log = e :: h.log ∧
      e.count = h.count ∧ e.payload = payloadOf h.count ∧
      e.writeStatus = FT_OK ∧ e.readStatus = some FT_OK ∧
      e.dataIN = some e.payload ∧ e.matched = true := by
  have engine : ∀ Q : List Nat, Q.length = EEPROM_DATA_LEN →
      (write_bytes echoTransport h.world I2C_DEVICE_ADDRESS_EEPROM START_ADDRESS_EEPROM Q
        EEPROM_DATA_LEN).1 = FT_OK ∧
      (read_bytes echoTransport
        (write_bytes echoTransport h.world I2C_DEVICE_ADDRESS_EEPROM START_ADDRESS_EEPROM Q
          EEPROM_DATA_LEN).2
        I2C_DEVICE_ADDRESS_EEPROM START_ADDRESS_EEPROM 1 (List.replicate EEPROM_DATA_LEN 0)
        EEPROM_DATA_LEN).1 = FT_OK ∧
      (read_bytes echoTransport
        (write_bytes echoTransport h.world I2C_DEVICE_ADDRESS_EEPROM START_ADDRESS_EEPROM Q
          EEPROM_DATA_LEN).2
        I2C_DEVICE_ADDRESS_EEPROM START_ADDRESS_EEPROM 1 (List.replicate EEPROM_DATA_LEN 0)
        EEPROM_DATA_LEN).2.2 = Q := by
    intro Q hQ
    obtain ⟨hw1, hw2⟩ := echo_write h.world I2C_DEVICE_ADDRESS_EEPROM START_ADDRESS_EEPROM Q
      hQ hbuf
    obtain ⟨hr1, hr2⟩ := echo_read _ I2C_DEVICE_ADDRESS_EEPROM START_ADDRESS_EEPROM Q
      (List.replicate EEPROM_DATA_LEN 0) hQ hw2
    refine ⟨hw1, hr1, ?_⟩
    rw [hr2]
    simp
  refine ⟨engine P hP, ?_⟩
  have hpd : prepare_data h.count h.dataOUT = payloadOf h.count := prepare_data_eq _ _ hout
  obtain ⟨hw, hr, hd⟩ := engine (prepare_data h.count h.dataOUT)
    (by rw [hpd]; exact payloadOf_length _)
  have hw' : (eeprom_write echoTransport h).1 = FT_OK := hw
  have hr' : (eeprom_read echoTransport h).1 = FT_OK := hr
  have hd' : (eeprom_read echoTransport h).2.2 = prepare_data h.count h.dataOUT := hd
  obtain ⟨hlog, hgl⟩ := eeprom_iteration_match echoTransport h hw' hr'
    (by rw [memcmp_eq_zero, hd'])
  refine ⟨hgl, readEntry echoTransport h, hlog, ?_, ?_, ?_, ?_, ?_, ?_⟩
  · with_reducible rfl
  · with_reducible exact hpd
  · with_reducible exact hw'
  · with_reducible exact congrArg some hr'
  · with_reducible exact congrArg some hd'
  · simp [Iteration.matched, hw', hr', hd']

/-- Witness for `echo_round_trip`: the first iteration of the harness at program start. -/
theorem echo_round_trip_witness :
    (eeprom_iteration echoTransport { eeprom_entry (World.init []) with count := 1 }).glitch = 0 ∧
    ∃ e, (eeprom_iteration echoTransport
        { eeprom_entry (World.init []) with count := 1 }).log = [e] ∧
      e.dataIN = some e.payload ∧ e.matched = true :=
  have h := echo_round_trip { eeprom_entry (World.init []) with count := 1 }
    (List.replicate EEPROM_DATA_LEN 7) (List.length_replicate _ _) (List.length_replicate _ _)
    (List.length_replicate _ _)
  ⟨h.2.1, h.2.2.imp fun _ he => ⟨he.1, he.2.2.2.2.2.1, he.2.2.2.2.2.2⟩⟩

/-! ## C11: how long the loop of `TestDeviceEEPROM` runs -/

theorem run_step {σ : Type} (T : Transport σ) (w : World σ) (K : Nat) :
    TestDeviceEEPROM T w (K + 1) = eeprom_step T (TestDeviceEEPROM T w K) := by
  unfold TestDeviceEEPROM
  exact eeprom_run_succ T K _

/-- Number of iterations executed within the first `K` steps. -/
theorem run_log_length {σ : Type} (T : Transport σ) (w : World σ) (K : Nat) :
    (TestDeviceEEPROM T w K).log.length = min K (UINT32_MOD - 1) := by
  obtain ⟨-, -, -, -, i5, i6⟩ := harnessInv_run T w K
  have hprog := run_progress T w K
  by_cases hk : K < UINT32_MOD
  · obtain ⟨h1, h2⟩ := hprog.1 hk
    rw [(i5 h1).2.1, h2]
    omega
  · rw [i6 (hprog.2 (by omega))]
    omega

/-- C11, as stated, fails: the loop condition is `++count` on a 32-bit counter, so after
`2^32 - 1` iterations the counter wraps to 0 and the loop is left, here with a transport that
always succeeds: after `2^32` steps the function has returned, `2^32 - 1` iterations have
been executed and a further step executes no further iteration. -/
theorem loop_never_exits_counterexample :
    (TestDeviceEEPROM echoTransport (World.init []) UINT32_MOD).returned = true ∧
    (TestDeviceEEPROM echoTransport (World.init []) UINT32_MOD).log.length = UINT32_MOD - 1 ∧
    (TestDeviceEEPROM echoTransport (World.init []) (UINT32_MOD + 1)).log.length
      = UINT32_MOD - 1 ∧
    ¬ ∃ e, (TestDeviceEEPROM echoTransport (World.init []) (UINT32_MOD + 1)).log
      = e :: (TestDeviceEEPROM echoTransport (World.init []) UINT32_MOD).log := by
  have h1 := (run_progress echoTransport (World.init []) UINT32_MOD).2 (Nat.le_refl _)
  have h2 := run_log_length echoTransport (World.init []) UINT32_MOD
  have h3 := run_log_length echoTransport (World.init []) (UINT32_MOD + 1)
  have e2 : min UINT32_MOD (UINT32_MOD - 1) = UINT32_MOD - 1 := by omega
  have e3 : min (UINT32_MOD + 1) (UINT32_MOD - 1) = UINT32_MOD - 1 := by omega
  rw [e2] at h2
  rw [e3] at h3
  refine ⟨h1, h2, h3, ?_⟩
  rintro ⟨e, he⟩
  have := congrArg List.length he
  rw [List.length_cons, h2, h3] at this
  omega

/-- C11 (amended): whatever the transport does, as long as fewer than `2^32 - 1` iterations
have been executed the loop of `TestDeviceEEPROM` has not been left and goes on to execute
the next iteration (the `(n+1)`-th after the `n`-th, for every `n + 1 < 2^32`); its only
stopping condition is the wrap of the 32-bit counter: the function has returned exactly
when `2^32` or more loop conditions have been evaluated. -/
theorem loop_runs_until_counter_wraps {σ : Type} (T : Transport σ) (w : World σ) (n : Nat)
    (hn : n + 1 < UINT32_MOD) :
    (TestDeviceEEPROM T w n).returned = false ∧
    (TestDeviceEEPROM T w n).log.length = n ∧
    (TestDeviceEEPROM T w (n + 1)).returned = false ∧
    (∃ e, (TestDeviceEEPROM T w (n + 1)).log = e :: (TestDeviceEEPROM T w n).log ∧
      e.count = n + 1) ∧
    ∀ K, ((TestDeviceEEPROM T w K).returned = true ↔ UINT32_MOD ≤ K) := by
  obtain ⟨hr0, hc0⟩ := (run_progress T w n).1 (by omega)
  obtain ⟨hr1, hc1⟩ := (run_progress T w (n + 1)).1 hn
  have hl0 := run_log_length T w n
  have hl1 := run_log_length T w (n + 1)
  have e0 : min n (UINT32_MOD - 1) = n := by omega
  have e1 : min (n + 1) (UINT32_MOD - 1) = n + 1 := by omega
  rw [e0] at hl0
  rw [e1] at hl1
  refine ⟨hr0, hl0, hr1, ?_, ?_⟩
  · obtain ⟨-, -, -, -, i5, -⟩ := harnessInv_run T w (n + 1)
    obtain ⟨-, -, hhead⟩ := i5 hr1
    rcases (eeprom_step_spec T _ (harnessInv_run T w n)).2 with ⟨-, hret, -, -⟩ |
      ⟨-, -, -, e, hlog, -⟩
    · rw [← run_step, hr1] at hret
      exact absurd hret (by simp)
    · rw [← run_step] at hlog
      refine ⟨e, hlog, ?_⟩
      rw [hhead e (by rw [hlog]; rfl), hc1]
  · intro K
    constructor
    · intro hret
      by_contra hk
      rw [((run_progress T w K).1 (by omega)).1] at hret
      exact absurd hret (by simp)
    · exact (run_progress T w K).2

/-- Witness for `loop_runs_until_counter_wraps`: the third iteration follows the second. -/
theorem loop_runs_until_counter_wraps_witness :
    2 + 1 < UINT32_MOD ∧
    (TestDeviceEEPROM (failFirst 13) (World.init 0) 2).returned = false ∧
    (TestDeviceEEPROM (failFirst 13) (World.init 0) 2).log.length = 2 ∧
    (TestDeviceEEPROM (failFirst 13) (World.init 0) (2 + 1)).returned = false :=
  have h := loop_runs_until_counter_wraps (failFirst 13) (World.init 0) 2 (by decide)
  ⟨by decide, h.1, h.2.1, h.2.2.1⟩

/-! ## C12: process exit -/

theorem check_status_fail {σ : Type} (status : Nat) (w : World σ) (h : status ≠ FT_OK) :
    APP_CHECK_STATUS status w
      = Proc.exited 1 { w with out := Out.statusNotOk status :: w.out } := by
  unfold APP_CHECK_STATUS
  rw [if_pos h]

theorem check_status_ok {σ : Type} (status : Nat) (w : World σ) (h : status = FT_OK) :
    APP_CHECK_STATUS status w = Proc.running w := by
  unfold APP_CHECK_STATUS
  rw [if_neg (not_not.mpr h)]

/-- C12, as stated, fails: with a transport that always answers `FT_IO_ERROR` (a transport
fault) the configuration write of `TestDeviceADC` fails and `APP_CHECK_STATUS` terminates
the process with exit code 1. -/
theorem harness_never_exits_counterexample :
    (write_bytes (alwaysStatus FT_IO_ERROR []) (World.init ()) I2C_DEVICE_ADDRESS_ADC 0x1
      [0x04, 0x00] ADC_DATA_LEN).1 = FT_IO_ERROR ∧
    (TestDeviceADC (alwaysStatus FT_IO_ERROR []) (World.init ()) 0).exitCode = some 1 ∧
    (TestDeviceADC (alwaysStatus FT_IO_ERROR []) (World.init ()) 5).exitCode = some 1 := by
  decide

/-- C12 (amended): whatever the transport does, `TestDeviceEEPROM` never reaches a process
exit, and `TestDeviceADC` reaches one (exit code 1) exactly when its initial write to the
configuration register returns a failing status; once that write has succeeded, no failing
`read_bytes` status and no read-back mismatch in its loops terminates the process. -/
theorem exit_only_on_adc_setup_failure {σ : Type} (T : Transport σ) (w : World σ) (n : Nat) :
    (TestDeviceEEPROM_process T w n).exitCode = none ∧
    ((write_bytes T w I2C_DEVICE_ADDRESS_ADC 0x1 [0x04, 0x00] ADC_DATA_LEN).1 ≠ FT_OK →
      (TestDeviceADC T w n).exitCode = some 1) ∧
    ((write_bytes T w I2C_DEVICE_ADDRESS_ADC 0x1 [0x04, 0x00] ADC_DATA_LEN).1 = FT_OK →
      (TestDeviceADC T w n).exitCode = none) ∧
    ((TestDeviceADC T w n).exitCode = some 1 ↔
      (write_bytes T w I2C_DEVICE_ADDRESS_ADC 0x1 [0x04, 0x00] ADC_DATA_LEN).1 ≠ FT_OK) := by
  have hd : ((List.replicate ADC_DATA_LEN 0).set 0 0x04).set 1 0x00 = [0x04, 0x00] := rfl
  have hfail : (write_bytes T w I2C_DEVICE_ADDRESS_ADC 0x1 [0x04, 0x00] ADC_DATA_LEN).1 ≠ FT_OK →
      (TestDeviceADC T w n).exitCode = some 1 := by
    intro h
    unfold TestDeviceADC adc_entry
    simp only [hd]
    rw [check_status_fail _ _ h]
    rfl
  have hok : (write_bytes T w I2C_DEVICE_ADDRESS_ADC 0x1 [0x04, 0x00] ADC_DATA_LEN).1 = FT_OK →
      (TestDeviceADC T w n).exitCode = none := by
    intro h
    unfold TestDeviceADC adc_entry
    simp only [hd]
    rw [check_status_ok _ _ h]
    rfl
  refine ⟨rfl, hfail, hok, ?_, hfail⟩
  intro hex
  by_contra hne
  rw [hok hne] at hex
  exact absurd hex (by simp)

/-! ## C13: the per-byte report -/

theorem foldl_push_lines (p : Nat → Prop) [DecidablePred p] (A B : Nat → Out) :
    ∀ (l : List Nat) (out : List Out),
      l.foldl (fun o a => if p a then A a :: o else B a :: o) out
        = (l.map (fun a => if p a then A a else B a)).reverse ++ out := by
  intro l
  induction l with
  | nil => intro out; rfl
  | cons x xs ih =>
    intro out
    rw [List.foldl_cons, ih]
    by_cases hx : p x <;> simp [hx]

/-- The report printed for written bytes `W` and read-back bytes `R`, line by line. -/
theorem report_bytes_lines (W R : List Nat) (out : List Out) :
    report_bytes W R out
      = ((List.range EEPROM_DATA_LEN).map (fun a =>
          if W.getD a 0 = R.getD a 0 then Out.byteSame a (W.getD a 0) (R.getD a 0)
          else Out.byteError a (W.getD a 0) (R.getD a 0))).reverse ++ out := by
  unfold report_bytes
  rw [foldl_push_lines (fun a => W.getD a 0 = R.getD a 0)
    (fun a => Out.byteSame a (W.getD a 0) (R.getD a 0))
    (fun a => Out.byteError a (W.getD a 0) (R.getD a 0)), List.range_eq_range']
  rfl

/-- The loop body when write and read succeed and the bytes differ. -/
theorem eeprom_iteration_mismatch {σ : Type} (T : Transport σ) (h : Harness σ)
    (hw : (eeprom_write T h).1 = FT_OK) (hr : (eeprom_read T h).1 = FT_OK)
    (hm : memcmp (eeprom_read T h).2.2 (prepare_data h.count h.dataOUT) EEPROM_DATA_LEN ≠ 0) :
    (eeprom_iteration T h).world.out
      = report_bytes (prepare_data h.count h.dataOUT) (eeprom_read T h).2.2
          (eeprom_read T h).2.1.out := by
  have hw' : ¬ (eeprom_write T h).1 ≠ FT_OK := not_not.mpr hw
  have hr' : ¬ (eeprom_read T h).1 ≠ FT_OK := not_not.mpr hr
  unfold eeprom_iteration
  simp only [if_neg hw', if_neg hr', if_neg hm]

/-- C13: when an iteration of the EEPROM loop reads back bytes that differ from the written
payload, what it prints is the per-byte report of the written and the read-back bytes; and
for any written bytes `W` and read-back bytes `R` that report has exactly one line for every
index 0..15, in index order, the line of index `a` being an error line if and only if
`W[a] ≠ R[a]` and a matching line otherwise; in particular, when only index 3 differs,
index 3 is flagged as an error and every other index is reported as matching. -/
theorem byte_report_accuracy {σ : Type} (T : Transport σ) (h : Harness σ)
    (hw : (eeprom_write T h).1 = FT_OK) (hr : (eeprom_read T h).1 = FT_OK)
    (hm : memcmp (eeprom_read T h).2.2 (prepare_data h.count h.dataOUT) EEPROM_DATA_LEN ≠ 0) :
    (eeprom_iteration T h).world.out
      = report_bytes (prepare_data h.count h.dataOUT) (eeprom_read T h).2.2
          (eeprom_read T h).2.1.out ∧
    ∀ (W R : List Nat) (out : List Out), ∃ lines : List Out,
      report_bytes W R out = lines.reverse ++ out ∧
      lines.length = EEPROM_DATA_LEN ∧
      (∀ a, a < EEPROM_DATA_LEN →
        (lines[a]? = some (Out.byteError a (W.getD a 0) (R.getD a 0)) ↔
          W.getD a 0 ≠ R.getD a 0) ∧
        (lines[a]? = some (Out.byteSame a (W.getD a 0) (R.getD a 0)) ↔
          W.getD a 0 = R.getD a 0)) ∧
      ((∀ a, a < EEPROM_DATA_LEN → (W.getD a 0 = R.getD a 0 ↔ a ≠ 3)) →
        ∀ a, a < EEPROM_DATA_LEN →
          lines[a]? = some (if a = 3 then Out.byteError 3 (W.getD 3 0) (R.getD 3 0)
            else Out.byteSame a (W.getD a 0) (R.getD a 0))) := by
  refine ⟨eeprom_iteration_mismatch T h hw hr hm, fun W R out => ?_⟩
  have hline : ∀ a, a < EEPROM_DATA_LEN →
      ((List.range EEPROM_DATA_LEN).map (fun a =>
        if W.getD a 0 = R.getD a 0 then Out.byteSame a (W.getD a 0) (R.getD a 0)
        else Out.byteError a (W.getD a 0) (R.getD a 0)))[a]?
      = some (if W.getD a 0 = R.getD a 0 then Out.byteSame a (W.getD a 0) (R.getD a 0)
        else Out.byteError a (W.getD a 0) (R.getD a 0)) := by
    intro a ha
    simp [List.getElem?_map, List.getElem?_range, ha]
  refine ⟨_, report_bytes_lines W R out, by simp, fun a ha => ?_, fun h3 a ha => ?_⟩
  · rw [hline a ha]
    by_cases heq : W.getD a 0 = R.getD a 0 <;> simp [heq]
  · rw [hline a ha]
    by_cases ha3 : a = 3
    · subst ha3
      have : ¬ W.getD 3 0 = R.getD 3 0 := fun he => ((h3 3 ha).mp he) rfl
      rw [if_neg this, if_pos rfl]
    · have : W.getD a 0 = R.getD a 0 := (h3 a ha).mpr ha3
      rw [if_pos this, if_neg ha3]

/-- Witness for `byte_report_accuracy`: the first iteration through a transport that
alters byte 3 of what it reads back. -/
theorem byte_report_accuracy_witness :
    (eeprom_write corruptTransport { eeprom_entry (World.init []) with count := 1 }).1
      = FT_OK ∧
    (eeprom_read corruptTransport { eeprom_entry (World.init []) with count := 1 }).1
      = FT_OK ∧
    (eeprom_iteration corruptTransport
      { eeprom_entry (World.init []) with count := 1 }).world.out
      = report_bytes (prepare_data 1 (List.replicate EEPROM_DATA_LEN 0))
          (eeprom_read corruptTransport
            { eeprom_entry (World.init []) with count := 1 }).2.2
          (eeprom_read corruptTransport
            { eeprom_entry (World.init []) with count := 1 }).2.1.out ∧
    (eeprom_iteration corruptTransport
      { eeprom_entry (World.init []) with count := 1 }).world.out.take 16
      = [Out.byteSame 15 16 16, Out.byteSame 14 15 15, Out.byteSame 13 14 14,
         Out.byteSame 12 13 13, Out.byteSame 11 12 12, Out.byteSame 10 11 11,
         Out.byteSame 9 10 10, Out.byteSame 8 9 9, Out.byteSame 7 8 8, Out.byteSame 6 7 7,
         Out.byteSame 5 6 6, Out.byteSame 4 5 5, Out.byteError 3 4 5, Out.byteSame 2 3 3,
         Out.byteSame 1 2 2, Out.byteSame 0 1 1] :=
  ⟨by decide, by decide,
    (byte_report_accuracy corruptTransport { eeprom_entry (World.init []) with count := 1 }
      (by decide) (by decide) (by decide)).1, by decide⟩

/-! ## C14: repetition period of the payload -/

theorem payloadOf_eq_iff (c1 c2 : Nat) :
    payloadOf c1 = payloadOf c2 ↔ c1 % UINT8_MOD = c2 % UINT8_MOD := by
  constructor
  · intro h
    have h2 := congrArg List.head? h
    rw [payloadOf_head, payloadOf_head] at h2
    exact Option.some.inj h2
  · intro h
    unfold payloadOf
    apply List.map_congr_left
    intro a _
    show (a + c1) % UINT8_MOD = (a + c2) % UINT8_MOD
    rw [Nat.add_mod a c1, Nat.add_mod a c2, h]

/-- C14: the payloads generated for two counter values are equal if and only if the counter
values are congruent modulo 256; so the payload of an iteration differs from that of each
of the next 255 iterations and equals that of the iteration 256 later; and in any run of
`TestDeviceEEPROM` two executed iterations wrote the same payload exactly when their
counters are congruent modulo 256. -/
theorem payload_period {σ : Type} (T : Transport σ) (w : World σ) (K : Nat) :
    (∀ c1 c2, payloadOf c1 = payloadOf c2 ↔ c1 % 256 = c2 % 256) ∧
    (∀ c d, 0 < d → d < 256 → payloadOf (c + d) ≠ payloadOf c) ∧
    (∀ c, payloadOf (c + 256) = payloadOf c) ∧
    (∀ c a, a < EEPROM_DATA_LEN →
      (prepare_data c (List.replicate EEPROM_DATA_LEN 0))[a]? = some ((a + c % 256) % 256)) ∧
    (∀ e1 ∈ (TestDeviceEEPROM T w K).log, ∀ e2 ∈ (TestDeviceEEPROM T w K).log,
      (e1.payload = e2.payload ↔ e1.count % 256 = e2.count % 256)) := by
  have hiff : ∀ c1 c2, payloadOf c1 = payloadOf c2 ↔ c1 % 256 = c2 % 256 := payloadOf_eq_iff
  refine ⟨hiff, ?_, ?_, ?_, ?_⟩
  · intro c d hd0 hd1 h
    have := (hiff _ _).mp h
    omega
  · intro c
    exact (hiff _ _).mpr (by omega)
  · intro c a ha
    rw [prepare_data_eq c _ (List.length_replicate _ _)]
    simp only [payloadOf, List.getElem?_map, List.getElem?_range ha, Option.map_some', UINT8_MOD]
    congr 1
    omega
  · obtain ⟨-, i2, -, -, -, -⟩ := harnessInv_run T w K
    intro e1 h1 e2 h2
    rw [i2 e1 h1, i2 e2 h2]
    exact hiff _ _

/-! ## The data phase, attempt by attempt -/

theorem readState_succ_last {σ : Type} (T : Transport σ) (slaveAddress size options : Nat) :
    ∀ (k : Nat) (d : σ) (buf : List Nat),
      readState T slaveAddress size options (k + 1) d buf
        = ((T.deviceRead (readState T slaveAddress size options k d buf).1 slaveAddress size
              (readState T slaveAddress size options k d buf).2 options).2.2.2,
           storeRead (readState T slaveAddress size options k d buf).2
             (readReceived T slaveAddress size options k d buf) size) := by
  intro k
  induction k with
  | zero => intro d buf; rfl
  | succ n ih =>
    intro d buf
    show readState T slaveAddress size options (n + 1) _ _ = _
    rw [ih]
    rfl

theorem readAttempt_eq_state {σ : Type} (T : Transport σ) (slaveAddress size options : Nat) :
    ∀ (k : Nat) (d : σ) (buf : List Nat),
      readAttempt T slaveAddress size options k d buf
        = (T.deviceRead (readState T slaveAddress size options k d buf).1 slaveAddress size
            (readState T slaveAddress size options k d buf).2 options).1 := by
  intro k
  induction k with
  | zero => intro d buf; rfl
  | succ n ih =>
    intro d buf
    show readAttempt T slaveAddress size options n _ _ = _
    rw [ih]
    rfl

/-- What a retry loop leaves behind, observed through any function `obs` of the globals
that advances with each retry. -/
theorem retry_while_obs {σ α : Type} (body : Nat → World σ → Nat × World σ)
    (stat : Nat → World σ → Nat) (obs : Nat → World σ → α)
    (h0 : ∀ st w, (body st w).1 = stat 0 w)
    (hS : ∀ st w k, stat (k + 1) w = stat k (body st w).2)
    (hO : ∀ st w k, obs (k + 1) w = obs k (body st w).2) :
    ∀ (left st : Nat) (w : World σ) (f : Nat), st ≠ FT_OK →
      (∀ k, k < f → stat k w ≠ FT_OK) → (f < left → stat f w = FT_OK) →
      obs 0 (retry_while body left st w).2 = obs (min (f + 1) left) w := by
  intro left
  induction left with
  | zero => intro st w f _ _ _; simp [retry_while]
  | succ n ih =>
    intro st w f hst hfail hok
    rw [retry_while_fail body n st w hst]
    cases f with
    | zero =>
      have h1 : (body st w).1 = FT_OK := by rw [h0]; exact hok (Nat.succ_pos n)
      rw [h1, retry_while_ok]
      have e : min (0 + 1) (n + 1) = 0 + 1 := by omega
      rw [e, hO st w 0]
    | succ g =>
      have h1 : (body st w).1 ≠ FT_OK := by rw [h0]; exact hfail 0 (Nat.succ_pos g)
      have hf' : ∀ k, k < g → stat k (body st w).2 ≠ FT_OK := by
        intro k hk; rw [← hS]; exact hfail (k + 1) (by omega)
      have ho' : g < n → stat g (body st w).2 = FT_OK := by
        intro hg; rw [← hS]; exact hok (by omega)
      rw [ih (body st w).1 (body st w).2 g h1 hf' ho', ← hO]
      congr 1
      omega

/-- Device state and buffer in which the data phase ends when its attempt `f` (0-based,
`f < 11`) is the first to succeed. -/
theorem read_data_loop_state {σ : Type} (T : Transport σ) (w : World σ)
    (slaveAddress numBytes f : Nat) (hf : f < 11)
    (hfail : ∀ k, k < f →
      readAttempt T slaveAddress numBytes read_options k w.dev w.buffer ≠ FT_OK)
    (hok : readAttempt T slaveAddress numBytes read_options f w.dev w.buffer = FT_OK) :
    ((read_data_loop T w FT_OK slaveAddress numBytes).2.dev,
      (read_data_loop T w FT_OK slaveAddress numBytes).2.buffer)
      = readState T slaveAddress numBytes read_options (f + 1) w.dev w.buffer := by
  unfold read_data_loop
  rw [ft_ok_lor]
  have hfirst : (I2C_DeviceRead T w slaveAddress numBytes read_options).1
      = readAttempt T slaveAddress numBytes read_options 0 w.dev w.buffer := rfl
  cases f with
  | zero =>
    rw [hfirst, hok, retry_while_ok]
    rfl
  | succ g =>
    have h1 : (I2C_DeviceRead T w slaveAddress numBytes read_options).1 ≠ FT_OK := by
      rw [hfirst]; exact hfail 0 (Nat.succ_pos g)
    have key := retry_while_obs (read_retry_body T slaveAddress numBytes read_options)
      (fun k v => readAttempt T slaveAddress numBytes read_options k v.dev v.buffer)
      (fun k v => readState T slaveAddress numBytes read_options k v.dev v.buffer)
      (by intro st v; simp only [read_retry_body_status]; rfl)
      (by intro st v k; simp only [read_retry_body_dev, read_retry_body_buffer]; rfl)
      (by intro st v k; simp only [read_retry_body_dev, read_retry_body_buffer]; rfl)
      10 _
      { (I2C_DeviceRead T w slaveAddress numBytes read_options).2 with timeRead := stop_time }
      g h1
      (by intro k hk; exact hfail (k + 1) (by omega))
      (by intro _; exact hok)
    have e : min (g + 1) 10 = g + 1 := by omega
    rw [e] at key
    exact key

/-- Among the first `m` attempts, if one succeeds there is a first one that does. -/
theorem first_success (P : Nat → Prop) [DecidablePred P] (m : Nat) (h : ∃ k, k < m ∧ P k) :
    ∃ f, f < m ∧ (∀ k, k < f → ¬ P k) ∧ P f := by
  refine ⟨Nat.find h, (Nat.find_spec h).1, fun k hk hP => ?_, (Nat.find_spec h).2⟩
  exact Nat.find_min h hk ⟨by have := (Nat.find_spec h).1; omega, hP⟩

theorem storeRead_take_general (buf r : List Nat) (len : Nat) :
    (storeRead buf r len).take len
      = r.take len ++ (buf.drop (r.take len).length).take (len - (r.take len).length) := by
  unfold storeRead
  rw [List.take_append_eq_append_take]
  congr 1
  rw [List.take_take, Nat.min_self]

/-! ## C3: output contract of `read_bytes` -/

/-- C3, as stated, fails: with a transport whose first read fails after putting `9, 9, 9`
into the transfer buffer and whose second read succeeds handing over the single byte `1`,
`read_bytes` of 3 bytes returns `FT_OK` with `data = [1, 9, 9]`, while the bytes delivered
by the last (successful) transport read are `[1]`: bytes of the failed attempt reach
`data`. -/
theorem read_bytes_output_counterexample :
    readAttempt shortReadTransport I2C_DEVICE_ADDRESS_EEPROM 3 read_options 0 0
      (World.init 0).buffer = FT_IO_ERROR ∧
    readAttempt shortReadTransport I2C_DEVICE_ADDRESS_EEPROM 3 read_options 1 0
      (World.init 0).buffer = FT_OK ∧
    readReceived shortReadTransport I2C_DEVICE_ADDRESS_EEPROM 3 read_options 1 0
      (World.init 0).buffer = [1] ∧
    (read_bytes shortReadTransport (World.init 0) I2C_DEVICE_ADDRESS_EEPROM 0 0 [0, 0, 0] 3).1
      = FT_OK ∧
    (read_bytes shortReadTransport (World.init 0) I2C_DEVICE_ADDRESS_EEPROM 0 0 [0, 0, 0] 3).2.2
      = [1, 9, 9] ∧
    ¬ ((read_bytes shortReadTransport (World.init 0) I2C_DEVICE_ADDRESS_EEPROM 0 0 [0, 0, 0]
        3).2.2.take 3
      = readReceived shortReadTransport I2C_DEVICE_ADDRESS_EEPROM 3 read_options 1 0
          (World.init 0).buffer) := by
  decide

/-- C3 (amended): for `numBytes` at most the transfer buffer capacity, if `read_bytes`
returns success then some attempt `f` (0-based, `f < 11`) of the data phase is the first
to succeed, and the first `numBytes` bytes of `data` are the first `numBytes` bytes of the
transfer buffer as that read left it: the bytes it handed over followed, when it handed over
fewer than `numBytes`, by what the buffer held at the following positions before that read;
they are exactly the bytes handed over whenever there are at least `numBytes` of them; the
rest of `data` is untouched.  If `read_bytes` returns a failing status, `data` is returned
unchanged, whatever the failed attempts wrote into the buffer.  The data phase starts from
`read_entry`, the globals after the register-select phase (if any). -/
theorem read_bytes_output_contract {σ : Type} (T : Transport σ) (w : World σ)
    (slaveAddress registerAddress bRegisterAddress : Nat) (data : List Nat) (numBytes : Nat)
    (hn : numBytes ≤ I2C_DEVICE_BUFFER_SIZE)
    (hbuf : w.buffer.length = I2C_DEVICE_BUFFER_SIZE) :
    ((read_bytes T w slaveAddress registerAddress bRegisterAddress data numBytes).1 = FT_OK →
      ∃ f, f < 11 ∧
        (∀ k, k < f → readAttempt T slaveAddress numBytes read_options k
          (read_entry T w slaveAddress registerAddress bRegisterAddress).dev
          (read_entry T w slaveAddress registerAddress bRegisterAddress).buffer ≠ FT_OK) ∧
        readAttempt T slaveAddress numBytes read_options f
          (read_entry T w slaveAddress registerAddress bRegisterAddress).dev
          (read_entry T w slaveAddress registerAddress bRegisterAddress).buffer = FT_OK ∧
        (read_bytes T w slaveAddress registerAddress bRegisterAddress data numBytes).2.2.take
            numBytes
          = (readReceived T slaveAddress numBytes read_options f
              (read_entry T w slaveAddress registerAddress bRegisterAddress).dev
              (read_entry T w slaveAddress registerAddress bRegisterAddress).buffer).take
              numBytes ++
            ((readState T slaveAddress numBytes read_options f
              (read_entry T w slaveAddress registerAddress bRegisterAddress).dev
              (read_entry T w slaveAddress registerAddress bRegisterAddress).buffer).2.drop
              ((readReceived T slaveAddress numBytes read_options f
                (read_entry T w slaveAddress registerAddress bRegisterAddress).dev
                (read_entry T w slaveAddress registerAddress bRegisterAddress).buffer).take
                numBytes).length).take
              (numBytes - ((readReceived T slaveAddress numBytes read_options f
                (read_entry T w slaveAddress registerAddress bRegisterAddress).dev
                (read_entry T w slaveAddress registerAddress bRegisterAddress).buffer).take
                numBytes).length) ∧
        (numBytes ≤ (readReceived T slaveAddress numBytes read_options f
            (read_entry T w slaveAddress registerAddress bRegisterAddress).dev
            (read_entry T w slaveAddress registerAddress bRegisterAddress).buffer).length →
          (read_bytes T w slaveAddress registerAddress bRegisterAddress data
            numBytes).2.2.take numBytes
            = (readReceived T slaveAddress numBytes read_options f
                (read_entry T w slaveAddress registerAddress bRegisterAddress).dev
                (read_entry T w slaveAddress registerAddress bRegisterAddress).buffer).take
                numBytes) ∧
        (read_bytes T w slaveAddress registerAddress bRegisterAddress data numBytes).2.2.drop
          numBytes = data.drop numBytes) ∧
    ((read_bytes T w slaveAddress registerAddress bRegisterAddress data numBytes).1 ≠ FT_OK →
      (read_bytes T w slaveAddress registerAddress bRegisterAddress data numBytes).2.2
        = data) := by
  by_cases hsel : bRegisterAddress ≠ 0 ∧ (read_select T w slaveAddress registerAddress).1 ≠ FT_OK
  · rw [read_bytes_select_failed T w slaveAddress registerAddress bRegisterAddress data numBytes
      hsel.1 hsel.2]
    exact ⟨fun h => absurd h hsel.2, fun _ => rfl⟩
  · have h : bRegisterAddress ≠ 0 → (read_select T w slaveAddress registerAddress).1 = FT_OK :=
      fun hb => by_contra fun hne => hsel ⟨hb, hne⟩
    have hl := read_entry_buffer_length T w slaveAddress registerAddress bRegisterAddress
    have hlen := read_data_loop_length T
      (read_entry T w slaveAddress registerAddress bRegisterAddress) FT_OK slaveAddress numBytes
      (by omega)
    rw [read_bytes_data_phase T w slaveAddress registerAddress bRegisterAddress data numBytes h,
      read_data_status, read_data_data]
    constructor
    · intro hok
      rw [if_pos hok]
      have hex : ∃ k, k < 11 ∧ readAttempt T slaveAddress numBytes read_options k
          (read_entry T w slaveAddress registerAddress bRegisterAddress).dev
          (read_entry T w slaveAddress registerAddress bRegisterAddress).buffer = FT_OK := by
        by_contra hno
        have hall : ∀ k, k < 11 → readAttempt T slaveAddress numBytes read_options k
            (read_entry T w slaveAddress registerAddress bRegisterAddress).dev
            (read_entry T w slaveAddress registerAddress bRegisterAddress).buffer ≠ FT_OK :=
          fun k hk hP => hno ⟨k, hk, hP⟩
        have hs := (read_data_attempts T
          (read_entry T w slaveAddress registerAddress bRegisterAddress) slaveAddress numBytes
          11 hall (by omega)).2
        rw [hok] at hs
        exact hall 10 (by omega) hs.symm
      obtain ⟨f, hf, hfail, hsucc⟩ := first_success _ 11 hex
      have hst := read_data_loop_state T
        (read_entry T w slaveAddress registerAddress bRegisterAddress) slaveAddress numBytes f
        hf hfail hsucc
      rw [readState_succ_last] at hst
      have hbuffer := congrArg Prod.snd hst
      simp only at hbuffer
      have hle : numBytes ≤ (read_data_loop T
          (read_entry T w slaveAddress registerAddress bRegisterAddress) FT_OK slaveAddress
          numBytes).2.buffer.length := by rw [hlen, hl]; omega
      refine ⟨f, hf, hfail, hsucc, ?_, ?_, memcpy_zero_drop _ _ _ hle⟩
      · rw [memcpy_zero_take _ _ _ hle, hbuffer]
        exact storeRead_take_general _ _ _
      · intro hrec
        rw [memcpy_zero_take _ _ _ hle, hbuffer]
        exact storeRead_take _ _ _ hrec
    · intro hne
      rw [if_neg hne]

/-- Witness for `read_bytes_output_contract`: the short-read transport, where `read_bytes`
succeeds on its second attempt. -/
theorem read_bytes_output_contract_witness :
    (3 ≤ I2C_DEVICE_BUFFER_SIZE) ∧
    (read_bytes shortReadTransport (World.init 0) I2C_DEVICE_ADDRESS_EEPROM 0 0 [0, 0, 0] 3).1
      = FT_OK ∧
    ∃ f, f < 11 ∧
      readAttempt shortReadTransport I2C_DEVICE_ADDRESS_EEPROM 3 read_options f
        (read_entry shortReadTransport (World.init 0) I2C_DEVICE_ADDRESS_EEPROM 0 0).dev
        (read_entry shortReadTransport (World.init 0) I2C_DEVICE_ADDRESS_EEPROM 0 0).buffer
        = FT_OK ∧
      (read_bytes shortReadTransport (World.init 0) I2C_DEVICE_ADDRESS_EEPROM 0 0 [0, 0, 0]
          3).2.2.drop 3 = [0, 0, 0].drop 3 :=
  have h := (read_bytes_output_contract shortReadTransport (World.init 0)
    I2C_DEVICE_ADDRESS_EEPROM 0 0 [0, 0, 0] 3 (by decide) (List.length_replicate _ _)).1
    (by decide)
  ⟨by decide, by decide, h.imp fun _ hf => ⟨hf.1, hf.2.2.1, hf.2.2.2.2.2⟩⟩

/-! ## The loop body, tied to the transactions it makes -/

/-- What the loop body does to the log, the glitch counter, `dataOUT` and the globals, in
terms of what `write_bytes` and `read_bytes` return. -/
theorem eeprom_iteration_effect {σ : Type} (T : Transport σ) (h : Harness σ) :
    (eeprom_iteration T h).log = iterationEntry T h :: h.log ∧
    (eeprom_iteration T h).glitch
      = (if iterationMatched T h then h.glitch else (h.glitch + 1) % UINT32_MOD) ∧
    (eeprom_iteration T h).dataOUT = prepare_data h.count h.dataOUT ∧
    (eeprom_iteration T h).world.calls = (iterationWorld T h).calls ∧
    (eeprom_iteration T h).world.dev = (iterationWorld T h).dev ∧
    (eeprom_iteration T h).world.buffer = (iterationWorld T h).buffer := by
  unfold iterationEntry iterationWorld iterationMatched
  by_cases hw : (eeprom_write T h).1 ≠ FT_OK
  · rw [if_pos hw, if_pos hw]
    refine ⟨?_, ?_, ?_, ?_, ?_, ?_⟩ <;> unfold eeprom_iteration <;> simp only [if_pos hw]
    simp [hw]
  · have hw' : (eeprom_write T h).1 = FT_OK := not_not.mp hw
    rw [if_neg hw, if_neg hw]
    by_cases hr : (eeprom_read T h).1 ≠ FT_OK
    · refine ⟨?_, ?_, ?_, ?_, ?_, ?_⟩ <;> unfold eeprom_iteration <;>
        simp only [if_neg hw, if_pos hr]
      simp [hr]
    · have hr' : (eeprom_read T h).1 = FT_OK := not_not.mp hr
      by_cases hm : memcmp (eeprom_read T h).2.2 (prepare_data h.count h.dataOUT)
          EEPROM_DATA_LEN = 0
      · refine ⟨?_, ?_, ?_, ?_, ?_, ?_⟩ <;> unfold eeprom_iteration <;>
          simp only [if_neg hw, if_neg hr, if_pos hm]
        rw [memcmp_eq_zero] at hm
        simp [hw', hr', hm]
      · refine ⟨?_, ?_, ?_, ?_, ?_, ?_⟩ <;> unfold eeprom_iteration <;>
          simp only [if_neg hw, if_neg hr, if_neg hm]
        rw [memcmp_eq_zero] at hm
        simp [hm]

/-- Before the counter wraps, step `K + 1` of the loop is the loop body entered from the
state after `K` steps with `count = K + 1`. -/
theorem run_step_iteration {σ : Type} (T : Transport σ) (w : World σ) (K : Nat)
    (hK : K + 1 < UINT32_MOD) :
    TestDeviceEEPROM T w (K + 1) = eeprom_iteration T (iterationStart T w K) := by
  obtain ⟨hr, hc⟩ := (run_progress T w K).1 (by omega)
  rw [run_step]
  have hmod : (K + 1) % UINT32_MOD = K + 1 := Nat.mod_eq_of_lt hK
  unfold eeprom_step iterationStart
  simp only [hr, hc, hmod]
  simp

/-- Once the counter is about to wrap, or has wrapped, a step changes neither the globals
nor the glitch counter. -/
theorem run_step_idle {σ : Type} (T : Transport σ) (w : World σ) (K : Nat)
    (hK : ¬ K + 1 < UINT32_MOD) :
    (TestDeviceEEPROM T w (K + 1)).world = (TestDeviceEEPROM T w K).world ∧
    (TestDeviceEEPROM T w (K + 1)).glitch = (TestDeviceEEPROM T w K).glitch := by
  rw [run_step]
  by_cases hk : UINT32_MOD ≤ K
  · have hr := (run_progress T w K).2 hk
    unfold eeprom_step
    simp [hr]
  · obtain ⟨hr, hc⟩ := (run_progress T w K).1 (by omega)
    have hmod : (K + 1) % UINT32_MOD = 0 := by
      have : K + 1 = UINT32_MOD := by omega
      rw [this]; exact Nat.mod_self _
    unfold eeprom_step
    simp [hr, hc, hmod]

/-! ## C8: glitch accounting -/

theorem run_glitch_le {σ : Type} (T : Transport σ) (w : World σ) (K : Nat) :
    (TestDeviceEEPROM T w K).glitch ≤ min K (UINT32_MOD - 1) := by
  obtain ⟨-, -, -, i4, -, -⟩ := harnessInv_run T w K
  rw [i4, ← run_log_length T w K]
  exact nonMatching_le _

/-- The glitch counter after step `K + 1`, before the counter wraps. -/
theorem run_step_glitch {σ : Type} (T : Transport σ) (w : World σ) (K : Nat)
    (hK : K + 1 < UINT32_MOD) :
    (TestDeviceEEPROM T w (K + 1)).glitch
      = (TestDeviceEEPROM T w K).glitch
        + (if iterationMatched T (iterationStart T w K) then 0 else 1) := by
  rw [run_step_iteration T w K hK, (eeprom_iteration_effect T (iterationStart T w K)).2.1]
  have hle := run_glitch_le T w K
  have hg : (iterationStart T w K).glitch = (TestDeviceEEPROM T w K).glitch := rfl
  rw [hg]
  cases iterationMatched T (iterationStart T w K)
  · simp only [Bool.false_eq_true, if_false]
    exact Nat.mod_eq_of_lt (by omega)
  · simp

/-- The glitch counter as the number of non-matching iterations among those executed. -/
theorem run_glitch_count {σ : Type} (T : Transport σ) (w : World σ) (K : Nat) :
    (TestDeviceEEPROM T w K).glitch
      = (List.range (min K (UINT32_MOD - 1))).countP
          (fun i => !iterationMatched T (iterationStart T w i)) := by
  induction K with
  | zero => simp [TestDeviceEEPROM, eeprom_run, eeprom_entry]
  | succ k ih =>
    by_cases hk : k + 1 < UINT32_MOD
    · have e1 : min (k + 1) (UINT32_MOD - 1) = k + 1 := by omega
      have e0 : min k (UINT32_MOD - 1) = k := by omega
      rw [e0] at ih
      rw [e1, run_step_glitch T w k hk, ih, List.range_succ, List.countP_append]
      cases hm : iterationMatched T (iterationStart T w k) <;> simp [List.countP_cons, hm]
    · have e1 : min (k + 1) (UINT32_MOD - 1) = min k (UINT32_MOD - 1) := by omega
      rw [e1, (run_step_idle T w k hk).2, ih]

/-- C8: after any number `K` of steps of the loop of `TestDeviceEEPROM`, whatever the
transport does, the glitch counter equals the number of executed iterations (there are
`min K (2^32 - 1)`) that did not end in a byte-exact match, a match being read off what
`write_bytes` and `read_bytes` actually return in that iteration (`iterationMatched`).
Iteration `K + 1`, entered from the state after `K` steps, calls `write_bytes` on the
generated payload and, if that succeeds, `read_bytes`: a failed write, a failed read and a
mismatch each add exactly one to the counter, a match adds nothing; the log entry carries
those statuses and bytes and the globals are those the transactions left.  So the counter
never decreases and equals the number of non-matching entries of the log. -/
theorem glitch_accounting {σ : Type} (T : Transport σ) (w : World σ) (K : Nat) :
    (TestDeviceEEPROM T w K).glitch
      = (List.range (min K (UINT32_MOD - 1))).countP
          (fun i => !iterationMatched T (iterationStart T w i)) ∧
    (K + 1 < UINT32_MOD →
      (TestDeviceEEPROM T w (K + 1)).glitch
        = (TestDeviceEEPROM T w K).glitch
          + (if iterationMatched T (iterationStart T w K) then 0 else 1) ∧
      ((eeprom_write T (iterationStart T w K)).1 ≠ FT_OK →
        (TestDeviceEEPROM T w (K + 1)).glitch = (TestDeviceEEPROM T w K).glitch + 1) ∧
      ((eeprom_write T (iterationStart T w K)).1 = FT_OK →
        (eeprom_read T (iterationStart T w K)).1 ≠ FT_OK →
        (TestDeviceEEPROM T w (K + 1)).glitch = (TestDeviceEEPROM T w K).glitch + 1) ∧
      ((eeprom_write T (iterationStart T w K)).1 = FT_OK →
        (eeprom_read T (iterationStart T w K)).1 = FT_OK →
        (eeprom_read T (iterationStart T w K)).2.2.take EEPROM_DATA_LEN
          ≠ (prepare_data (K + 1) (TestDeviceEEPROM T w K).dataOUT).take EEPROM_DATA_LEN →
        (TestDeviceEEPROM T w (K + 1)).glitch = (TestDeviceEEPROM T w K).glitch + 1) ∧
      ((eeprom_write T (iterationStart T w K)).1 = FT_OK →
        (eeprom_read T (iterationStart T w K)).1 = FT_OK →
        (eeprom_read T (iterationStart T w K)).2.2.take EEPROM_DATA_LEN
          = (prepare_data (K + 1) (TestDeviceEEPROM T w K).dataOUT).take EEPROM_DATA_LEN →
        (TestDeviceEEPROM T w (K + 1)).glitch = (TestDeviceEEPROM T w K).glitch) ∧
      (TestDeviceEEPROM T w (K + 1)).log
        = iterationEntry T (iterationStart T w K) :: (TestDeviceEEPROM T w K).log ∧
      (TestDeviceEEPROM T w (K + 1)).world.calls
        = (iterationWorld T (iterationStart T w K)).calls ∧
      (TestDeviceEEPROM T w (K + 1)).world.dev
        = (iterationWorld T (iterationStart T w K)).dev ∧
      (TestDeviceEEPROM T w (K + 1)).world.buffer
        = (iterationWorld T (iterationStart T w K)).buffer) ∧
    (TestDeviceEEPROM T w K).glitch = nonMatching (TestDeviceEEPROM T w K).log ∧
    (TestDeviceEEPROM T w K).log.length = min K (UINT32_MOD - 1) ∧
    (TestDeviceEEPROM T w K).glitch ≤ (TestDeviceEEPROM T w (K + 1)).glitch ∧
    (((TestDeviceEEPROM T w (K + 1)).log = (TestDeviceEEPROM T w K).log ∧
        (TestDeviceEEPROM T w (K + 1)).glitch = (TestDeviceEEPROM T w K).glitch) ∨
      ∃ e, (TestDeviceEEPROM T w (K + 1)).log = e :: (TestDeviceEEPROM T w K).log ∧
        (TestDeviceEEPROM T w (K + 1)).glitch
          = (TestDeviceEEPROM T w K).glitch + (if e.matched then 0 else 1)) := by
  obtain ⟨-, -, -, i4, -, -⟩ := harnessInv_run T w K
  refine ⟨run_glitch_count T w K, fun hK => ?_, i4, run_log_length T w K, ?_, ?_⟩
  · have hg := run_step_glitch T w K hK
    have heff := eeprom_iteration_effect T (iterationStart T w K)
    rw [← run_step_iteration T w K hK] at heff
    have hpd : prepare_data (iterationStart T w K).count (iterationStart T w K).dataOUT
        = prepare_data (K + 1) (TestDeviceEEPROM T w K).dataOUT := rfl
    refine ⟨hg, fun hw => ?_, fun hw hr => ?_, fun hw hr hne => ?_, fun hw hr heq => ?_,
      heff.1, heff.2.2.2.1, heff.2.2.2.2.1, heff.2.2.2.2.2⟩
    · rw [hg]; simp [iterationMatched, hw]
    · rw [hg]; simp [iterationMatched, hr]
    · rw [hg]
      have : iterationMatched T (iterationStart T w K) = false := by
        unfold iterationMatched
        rw [hpd]
        simp [hne]
      rw [this]; simp
    · rw [hg]
      have : iterationMatched T (iterationStart T w K) = true := by
        unfold iterationMatched
        rw [hpd]
        simp [hw, hr, heq]
      rw [this]; simp
  · rw [run_step]
    rcases (eeprom_step_spec T _ (harnessInv_run T w K)).2 with ⟨-, -, -, hg⟩ |
      ⟨-, -, -, e, -, hg⟩
    · rw [hg]
    · rw [hg]; omega
  · rw [run_step]
    rcases (eeprom_step_spec T _ (harnessInv_run T w K)).2 with ⟨-, -, hl, hg⟩ |
      ⟨-, -, -, e, hl, hg⟩
    · exact Or.inl ⟨hl, hg⟩
    · exact Or.inr ⟨e, hl, hg⟩

/-- Witness for `glitch_accounting`: a transport failing its first 13 calls; the first
iteration is abandoned after 11 failed writes, the second and third read back wrong bytes. -/
theorem glitch_accounting_witness :
    (2 + 1 < UINT32_MOD) ∧
    (eeprom_write (failFirst 13) (iterationStart (failFirst 13) (World.init 0) 0)).1 ≠ FT_OK ∧
    (TestDeviceEEPROM (failFirst 13) (World.init 0) (0 + 1)).glitch
      = (TestDeviceEEPROM (failFirst 13) (World.init 0) 0).glitch + 1 ∧
    (TestDeviceEEPROM (failFirst 13) (World.init 0) (2 + 1)).glitch
      = (TestDeviceEEPROM (failFirst 13) (World.init 0) 2).glitch
        + (if iterationMatched (failFirst 13) (iterationStart (failFirst 13) (World.init 0) 2)
            then 0 else 1) ∧
    (TestDeviceEEPROM (failFirst 13) (World.init 0) 3).glitch = 3 :=
  ⟨by decide, by decide,
    ((glitch_accounting (failFirst 13) (World.init 0) 0).2.1 (by decide)).2.1 (by decide),
    ((glitch_accounting (failFirst 13) (World.init 0) 2).2.1 (by decide)).1, by decide⟩

/-! ## The transfer buffer never becomes empty -/

theorem frame_pos (buffer : List Nat) (registerAddress : Nat) (data : List Nat)
    (numBytes : Nat) (h : 0 < buffer.length) :
    0 < (frame buffer registerAddress data numBytes).length := by
  cases buffer with
  | nil => simp at h
  | cons b bs => simp [frame, memcpy]

theorem storeRead_pos (buf r : List Nat) (len : Nat) (h : 0 < buf.length) :
    0 < (storeRead buf r len).length := by
  unfold storeRead
  rw [List.length_append, List.length_drop]
  omega

theorem read_data_loop_buffer_pos {σ : Type} (T : Transport σ) (w : World σ) (status : Nat)
    (slaveAddress numBytes : Nat) (h : 0 < w.buffer.length) :
    0 < (read_data_loop T w status slaveAddress numBytes).2.buffer.length := by
  unfold read_data_loop
  refine retry_while_inv (read_retry_body T slaveAddress numBytes read_options)
    (fun _ v => 0 < v.buffer.length) ?_ 10 _ _ ?_
  · intro st v _ hv
    rw [read_retry_body_buffer]
    exact storeRead_pos _ _ _ hv
  · show 0 < (storeRead _ _ _).length
    exact storeRead_pos _ _ _ h

theorem read_bytes_buffer_pos {σ : Type} (T : Transport σ) (w : World σ)
    (slaveAddress registerAddress bRegisterAddress : Nat) (data : List Nat) (numBytes : Nat)
    (h : 0 < w.buffer.length) :
    0 < (read_bytes T w slaveAddress registerAddress bRegisterAddress data
      numBytes).2.1.buffer.length := by
  by_cases hsel : bRegisterAddress ≠ 0 ∧ (read_select T w slaveAddress registerAddress).1 ≠ FT_OK
  · rw [read_bytes_select_failed T w slaveAddress registerAddress bRegisterAddress data numBytes
      hsel.1 hsel.2]
    show 0 < (read_select T w slaveAddress registerAddress).2.buffer.length
    rw [(read_select_trace T w slaveAddress registerAddress).1, List.length_set]
    exact h
  · have hs : bRegisterAddress ≠ 0 → (read_select T w slaveAddress registerAddress).1 = FT_OK :=
      fun hb => by_contra fun hne => hsel ⟨hb, hne⟩
    rw [read_bytes_data_phase T w slaveAddress registerAddress bRegisterAddress data numBytes hs,
      read_data_world]
    apply read_data_loop_buffer_pos
    rw [read_entry_buffer_length]
    exact h

theorem iterationWorld_buffer_pos {σ : Type} (T : Transport σ) (h : Harness σ)
    (hb : 0 < h.world.buffer.length) : 0 < (iterationWorld T h).buffer.length := by
  have hw : 0 < (eeprom_write T h).2.buffer.length := by
    rw [(write_bytes_trace T h.world I2C_DEVICE_ADDRESS_EEPROM START_ADDRESS_EEPROM
      (prepare_data h.count h.dataOUT) EEPROM_DATA_LEN).1]
    exact frame_pos _ _ _ _ hb
  unfold iterationWorld
  split
  · exact hw
  · exact read_bytes_buffer_pos T _ _ _ _ _ _ hw

theorem run_buffer_pos {σ : Type} (T : Transport σ) (w : World σ) (hb : 0 < w.buffer.length)
    (K : Nat) : 0 < (TestDeviceEEPROM T w K).world.buffer.length := by
  induction K with
  | zero => exact hb
  | succ k ih =>
    by_cases hk : k + 1 < UINT32_MOD
    · rw [run_step_iteration T w k hk, (eeprom_iteration_effect T _).2.2.2.2.2]
      exact iterationWorld_buffer_pos T _ ih
    · rw [(run_step_idle T w k hk).1]
      exact ih

/-- The transport calls of the iteration entered in state `h`: the writes of `write_bytes`
(at least one), each carrying the register address followed by the generated payload, then
whatever `read_bytes` issues. -/
theorem iterationWorld_calls {σ : Type} (T : Transport σ) (h : Harness σ)
    (hb : 0 < h.world.buffer.length) (hd : h.dataOUT.length = EEPROM_DATA_LEN) :
    ∃ rd wr, (iterationWorld T h).calls = rd ++ wr ++ h.world.calls ∧ wr ≠ [] ∧
      ((eeprom_write T h).1 ≠ FT_OK → rd = []) ∧
      ∀ c ∈ wr, c.dir = Dir.write ∧ c.slaveAddress = I2C_DEVICE_ADDRESS_EEPROM ∧
        c.sizeToTransfer = EEPROM_DATA_LEN + 1 ∧
        c.bufIn.take (EEPROM_DATA_LEN + 1) = START_ADDRESS_EEPROM :: payloadOf h.count := by
  have hpd := prepare_data_eq h.count h.dataOUT hd
  obtain ⟨-, wr, hwr, hne, hall⟩ := write_bytes_trace T h.world I2C_DEVICE_ADDRESS_EEPROM
    START_ADDRESS_EEPROM (prepare_data h.count h.dataOUT) EEPROM_DATA_LEN
  have hwr' : (eeprom_write T h).2.calls = wr ++ h.world.calls := hwr
  have hcalls : ∀ c ∈ wr, c.dir = Dir.write ∧ c.slaveAddress = I2C_DEVICE_ADDRESS_EEPROM ∧
      c.sizeToTransfer = EEPROM_DATA_LEN + 1 ∧
      c.bufIn.take (EEPROM_DATA_LEN + 1) = START_ADDRESS_EEPROM :: payloadOf h.count := by
    intro c hc
    obtain ⟨h1, h2, h3, h4, -, -⟩ := hall c hc
    refine ⟨h1, h2, by rw [h3]; decide, ?_⟩
    rw [h4, ← hpd]
    exact frame_take _ _ _ _ (by rw [hpd]; exact payloadOf_length _) hb
  unfold iterationWorld
  by_cases hw : (eeprom_write T h).1 ≠ FT_OK
  · rw [if_pos hw]
    exact ⟨[], wr, by rw [hwr']; rfl, hne, fun _ => rfl, hcalls⟩
  · rw [if_neg hw]
    obtain ⟨sel, dat, hrd, -⟩ := read_bytes_trace T (eeprom_write T h).2
      I2C_DEVICE_ADDRESS_EEPROM START_ADDRESS_EEPROM 1 (List.replicate EEPROM_DATA_LEN 0)
      EEPROM_DATA_LEN
    have hrd' : (eeprom_read T h).2.1.calls = (dat ++ sel) ++ (eeprom_write T h).2.calls := hrd
    refine ⟨dat ++ sel, wr, ?_, hne, fun hf => absurd hf hw, hcalls⟩
    rw [hrd', hwr']
    simp only [List.append_assoc]

/-! ## C10: payload freshness -/

/-- `dataOUT` after step `K + 1`, before the counter wraps. -/
theorem run_step_dataOUT {σ : Type} (T : Transport σ) (w : World σ) (K : Nat)
    (hK : K + 1 < UINT32_MOD) :
    (TestDeviceEEPROM T w (K + 1)).dataOUT
        = prepare_data (K + 1) (TestDeviceEEPROM T w K).dataOUT ∧
    (TestDeviceEEPROM T w (K + 1)).dataOUT = payloadOf (K + 1) := by
  obtain ⟨i1, -⟩ := harnessInv_run T w K
  have h1 : (TestDeviceEEPROM T w (K + 1)).dataOUT
      = prepare_data (K + 1) (TestDeviceEEPROM T w K).dataOUT := by
    rw [run_step_iteration T w K hK, (eeprom_iteration_effect T _).2.2.1]
    rfl
  exact ⟨h1, by rw [h1]; exact prepare_data_eq _ _ i1⟩

/-- C10: in every iteration `K + 1` of the loop of `TestDeviceEEPROM` (before the counter
wraps), whatever the transport does and whatever happened in the iterations before, the
array `dataOUT` is regenerated by `prepare_data` from the counter value `K + 1`: byte `a` is
`(a + count)` truncated to 8 bits (`payloadOf`); these are the bytes handed to `write_bytes`
and, framed behind the register address, to every transport write it issues; and the
payload of iteration `K + 2` differs from that of iteration `K + 1`, also when iteration
`K + 1` was abandoned after a write failure and also when the low 8 bits of the counter
wrap from 255 to 0.  The log of executed iterations records these payloads. -/
theorem payload_freshness {σ : Type} (T : Transport σ) (w : World σ) (K : Nat) :
    (K + 1 < UINT32_MOD →
      (TestDeviceEEPROM T w (K + 1)).dataOUT
        = prepare_data (K + 1) (TestDeviceEEPROM T w K).dataOUT ∧
      (TestDeviceEEPROM T w (K + 1)).dataOUT = payloadOf (K + 1) ∧
      (∀ a, a < EEPROM_DATA_LEN →
        (TestDeviceEEPROM T w (K + 1)).dataOUT[a]? = some ((a + (K + 1)) % UINT8_MOD)) ∧
      (TestDeviceEEPROM T w (K + 1)).world.calls
        = (if (write_bytes T (TestDeviceEEPROM T w K).world I2C_DEVICE_ADDRESS_EEPROM
              START_ADDRESS_EEPROM (payloadOf (K + 1)) EEPROM_DATA_LEN).1 ≠ FT_OK then
            (write_bytes T (TestDeviceEEPROM T w K).world I2C_DEVICE_ADDRESS_EEPROM
              START_ADDRESS_EEPROM (payloadOf (K + 1)) EEPROM_DATA_LEN).2.calls
          else
            (read_bytes T
              (write_bytes T (TestDeviceEEPROM T w K).world I2C_DEVICE_ADDRESS_EEPROM
                START_ADDRESS_EEPROM (payloadOf (K + 1)) EEPROM_DATA_LEN).2
              I2C_DEVICE_ADDRESS_EEPROM START_ADDRESS_EEPROM 1
              (List.replicate EEPROM_DATA_LEN 0) EEPROM_DATA_LEN).2.1.calls) ∧
      (0 < w.buffer.length →
        ∃ rd wr, (TestDeviceEEPROM T w (K + 1)).world.calls
            = rd ++ wr ++ (TestDeviceEEPROM T w K).world.calls ∧ wr ≠ [] ∧
          ∀ c ∈ wr, c.dir = Dir.write ∧ c.slaveAddress = I2C_DEVICE_ADDRESS_EEPROM ∧
            c.sizeToTransfer = EEPROM_DATA_LEN + 1 ∧
            c.bufIn.take (EEPROM_DATA_LEN + 1)
              = START_ADDRESS_EEPROM :: payloadOf (K + 1)) ∧
      (TestDeviceEEPROM T w (K + 1)).log.length = K + 1 ∧
      (∀ e, (TestDeviceEEPROM T w (K + 1)).log.head? = some e →
        e.count = K + 1 ∧ e.payload = (TestDeviceEEPROM T w (K + 1)).dataOUT) ∧
      (K + 2 < UINT32_MOD →
        (TestDeviceEEPROM T w (K + 2)).dataOUT ≠ (TestDeviceEEPROM T w (K + 1)).dataOUT)) ∧
    (∀ e ∈ (TestDeviceEEPROM T w K).log,
      e.payload = payloadOf e.count ∧ e.payload.length = EEPROM_DATA_LEN) ∧
    List.Chain' Fresh (TestDeviceEEPROM T w K).log ∧
    (∀ count a, a < EEPROM_DATA_LEN →
      (payloadOf count)[a]? = some ((a + count) % UINT8_MOD)) ∧
    (∀ count, payloadOf (count + 1) ≠ payloadOf count) ∧
    payloadOf 256 ≠ payloadOf 255 := by
  obtain ⟨i1, i2, i3, -, -, -⟩ := harnessInv_run T w K
  have hbyte : ∀ count a, a < EEPROM_DATA_LEN →
      (payloadOf count)[a]? = some ((a + count) % UINT8_MOD) := by
    intro count a ha
    simp [payloadOf, List.getElem?_map, List.getElem?_range, ha]
  refine ⟨fun hK => ?_, fun e he => ⟨i2 e he, by rw [i2 e he]; exact payloadOf_length _⟩, i3,
    hbyte, payloadOf_succ_ne, payloadOf_succ_ne 255⟩
  obtain ⟨hd1, hd2⟩ := run_step_dataOUT T w K hK
  have heff := eeprom_iteration_effect T (iterationStart T w K)
  rw [← run_step_iteration T w K hK] at heff
  have hpd : prepare_data (iterationStart T w K).count (iterationStart T w K).dataOUT
      = payloadOf (K + 1) := prepare_data_eq _ _ i1
  have hew : eeprom_write T (iterationStart T w K)
      = write_bytes T (TestDeviceEEPROM T w K).world I2C_DEVICE_ADDRESS_EEPROM
          START_ADDRESS_EEPROM (payloadOf (K + 1)) EEPROM_DATA_LEN := by
    show write_bytes T _ _ _ (prepare_data (iterationStart T w K).count
      (iterationStart T w K).dataOUT) _ = _
    rw [hpd]
    rfl
  have hlen := run_log_length T w (K + 1)
  have emin : min (K + 1) (UINT32_MOD - 1) = K + 1 := by omega
  rw [emin] at hlen
  refine ⟨hd1, hd2, fun a ha => by rw [hd2]; exact hbyte _ a ha, ?_, fun hb => ?_, hlen,
    fun e he => ?_, fun hK2 => ?_⟩
  · rw [heff.2.2.2.1]
    unfold iterationWorld
    show (if (eeprom_write T (iterationStart T w K)).1 ≠ FT_OK then
        (eeprom_write T (iterationStart T w K)).2
      else (read_bytes T (eeprom_write T (iterationStart T w K)).2 I2C_DEVICE_ADDRESS_EEPROM
        START_ADDRESS_EEPROM 1 (List.replicate EEPROM_DATA_LEN 0) EEPROM_DATA_LEN).2.1).calls
      = _
    rw [hew]
    split <;> rfl
  · rw [heff.2.2.2.1]
    obtain ⟨rd, wr, hc, hne, -, hall⟩ := iterationWorld_calls T (iterationStart T w K)
      (run_buffer_pos T w hb K) i1
    exact ⟨rd, wr, hc, hne, hall⟩
  · rw [heff.1] at he
    simp only [List.head?_cons, Option.some.injEq] at he
    subst he
    constructor
    · unfold iterationEntry
      split <;> rfl
    · rw [hd2, ← hpd]
      unfold iterationEntry
      split <;> with_reducible rfl
  · rw [(run_step_dataOUT T w (K + 1) hK2).2, hd2]
    exact payloadOf_succ_ne (K + 1)

/-- Witness for `payload_freshness`: a transport failing its first 13 calls, so that the
first iteration is abandoned after its write; the payloads of iterations 1 and 2. -/
theorem payload_freshness_witness :
    (0 + 2 < UINT32_MOD) ∧
    (eeprom_write (failFirst 13) (iterationStart (failFirst 13) (World.init 0) 0)).1 ≠ FT_OK ∧
    (TestDeviceEEPROM (failFirst 13) (World.init 0) (0 + 1)).dataOUT = payloadOf (0 + 1) ∧
    (TestDeviceEEPROM (failFirst 13) (World.init 0) (0 + 2)).dataOUT
      ≠ (TestDeviceEEPROM (failFirst 13) (World.init 0) (0 + 1)).dataOUT ∧
    (TestDeviceEEPROM (failFirst 13) (World.init 0) 2).dataOUT
      = [2, 3, 4, 5, 6, 7, 8, 9, 10, 11, 12, 13, 14, 15, 16, 17] :=
  have h := (payload_freshness (failFirst 13) (World.init 0) 0).1 (by decide)
  ⟨by decide, by decide, h.2.1, h.2.2.2.2.2.2.2 (by decide), by decide⟩

end MPSSE
